import Mathlib

/-!
Verification development for the PSD Procedural Logic Engine.

The definitions below are a shallow embedding of the repository's
TypeScript source: JS numbers are modelled as exact rationals (`ℚ`),
optional fields as `Option`, and JS truthiness tests are made explicit
(`0`, `''`, `undefined` are falsy; objects and arrays are always truthy).
Each definition names the source function it embeds.
-/

set_option maxRecDepth 4000

namespace PSD

/-- JS truthiness of an optional string (`undefined` and `''` are falsy). -/
def truthyOS : Option String → Bool
  | some s => s ≠ ""
  | none => false

/-- JS truthiness of an optional boolean (`undefined` and `false` are falsy). -/
def truthyOB : Option Bool → Bool
  | some b => b
  | none => false

/-- JS truthiness of an optional number (`undefined` and `0` are falsy). -/
def truthyON : Option ℚ → Bool
  | some q => q ≠ 0
  | none => false

/-- JS `a || b` on optional strings (left if truthy, else right). -/
def jsOrOS (a b : Option String) : Option String :=
  if truthyOS a then a else b

/-- JS `a || b` on optional numbers (left if truthy, else right). -/
def jsOrON (a b : Option ℚ) : Option ℚ :=
  if truthyON a then a else b

/-- JS `a || b` where `a` is a plain string and `b : Option String`,
the result defaulting to `''` (models `a || b || ''`). -/
def jsOrS (a : String) (b : Option String) : String :=
  if a ≠ "" then a else match b with
    | some s => s
    | none => ""

/-- JS `a ?? b` (nullish coalescing) on options. -/
def jsNullish {α : Type} (a b : Option α) : Option α :=
  match a with
  | some x => some x
  | none => b

/-- A pixel rectangle `{x, y, w, h}`. -/
structure Rect where
  x : ℚ
  y : ℚ
  w : ℚ
  h : ℚ
  deriving DecidableEq, Repr

/-- Width/height pair. -/
structure Dim where
  w : ℚ
  h : ℚ
  deriving DecidableEq, Repr

/-- `metrics` field of a transformed payload: source and target dimensions. -/
structure Metrics where
  source : Dim
  target : Dim
  deriving DecidableEq, Repr

/-! ### Decimal rendering of array indices

The source interpolates array indices into id strings
(`container-${index}-…`, `${path}.${index}`).  `natToChars` is the
decimal rendering of a natural number used by those interpolations; its
characters are always digits, and it is injective (proved via the
explicit parse `parseDigits`). -/

/-- The decimal digit character for `d < 10`. -/
def digitChar (d : Nat) : Char := Char.ofNat (48 + d)

/-- Decimal rendering of a natural number as a character list. -/
def natToChars (n : Nat) : List Char :=
  if _h : n < 10 then [digitChar n]
  else natToChars (n / 10) ++ [digitChar (n % 10)]
  decreasing_by exact Nat.div_lt_self (by omega) (by omega)

/-- Parse a digit list back to a natural number (big-endian fold). -/
def parseDigits (cs : List Char) : Nat :=
  cs.foldl (fun a c => 10 * a + (c.toNat - 48)) 0

theorem parseDigits_append (xs ys : List Char) :
    parseDigits (xs ++ ys) = ys.foldl (fun a c => 10 * a + (c.toNat - 48)) (parseDigits xs) := by
  simp [parseDigits, List.foldl_append]

theorem digitChar_isDigit {d : Nat} (h : d < 10) : (digitChar d).isDigit = true := by
  interval_cases d <;> decide

theorem digitChar_toNat {d : Nat} (h : d < 10) : (digitChar d).toNat = 48 + d := by
  interval_cases d <;> decide

theorem natToChars_ne_nil (n : Nat) : natToChars n ≠ [] := by
  unfold natToChars
  split <;> simp

theorem natToChars_all_digits (n : Nat) : ∀ c ∈ natToChars n, c.isDigit = true := by
  induction n using natToChars.induct with
  | case1 n h =>
    intro c hc
    rw [natToChars, dif_pos h] at hc
    simp only [List.mem_singleton] at hc
    subst hc; exact digitChar_isDigit h
  | case2 n h ih =>
    intro c hc
    rw [natToChars, dif_neg h] at hc
    rcases List.mem_append.mp hc with hc | hc
    · exact ih c hc
    · simp only [List.mem_singleton] at hc
      subst hc; exact digitChar_isDigit (Nat.mod_lt _ (by omega))

theorem parseDigits_natToChars (n : Nat) : parseDigits (natToChars n) = n := by
  induction n using natToChars.induct with
  | case1 n h =>
    rw [natToChars, dif_pos h]
    simp [parseDigits, digitChar_toNat h]
  | case2 n h ih =>
    rw [natToChars, dif_neg h]
    rw [parseDigits_append, ih]
    simp only [List.foldl_cons, List.foldl_nil, digitChar_toNat (Nat.mod_lt n (by omega))]
    omega

theorem natToChars_injective : Function.Injective natToChars := by
  intro a b h
  have := parseDigits_natToChars a
  rw [h, parseDigits_natToChars] at this
  omega

/-- Decimal string rendering (a JS `${n}` interpolation of an array index). -/
def natToString (n : Nat) : String := String.mk (natToChars n)

/-! ### Layer data model (src `types`: `SerializableLayer`, `TransformedLayer`) -/

/-- The `type` field of a layer: `'layer' | 'group' | 'generative'`. -/
inductive LKind where
  | layer
  | group
  | generative
  deriving DecidableEq, Repr

/-- `SerializableLayer`: `{id, name, type, isVisible, opacity, coords, children?}`.
A nested inductive; `children` is `Option` to distinguish an absent field
from an empty array. -/
inductive SLayer where
  | mk (id : String) (name : String) (type : LKind) (isVisible : Bool)
      (opacity : ℚ) (coords : Rect) (children : Option (List SLayer))

def SLayer.id : SLayer → String | .mk v _ _ _ _ _ _ => v
def SLayer.name : SLayer → String | .mk _ v _ _ _ _ _ => v
def SLayer.type : SLayer → LKind | .mk _ _ v _ _ _ _ => v
def SLayer.isVisible : SLayer → Bool | .mk _ _ _ v _ _ _ => v
def SLayer.opacity : SLayer → ℚ | .mk _ _ _ _ v _ _ => v
def SLayer.coords : SLayer → Rect | .mk _ _ _ _ _ v _ => v
def SLayer.children : SLayer → Option (List SLayer) | .mk _ _ _ _ _ _ v => v

/-- The `transform` field of a `TransformedLayer`. -/
structure Transform4 where
  scaleX : ℚ
  scaleY : ℚ
  offsetX : ℚ
  offsetY : ℚ
  deriving DecidableEq, Repr

/-- `TransformedLayer`: a `SerializableLayer` plus `transform` and an
optional `generativePrompt`. -/
inductive TLayer where
  | mk (id : String) (name : String) (type : LKind) (isVisible : Bool)
      (opacity : ℚ) (coords : Rect) (transform : Transform4)
      (children : Option (List TLayer)) (generativePrompt : Option String)

def TLayer.id : TLayer → String | .mk v _ _ _ _ _ _ _ _ => v
def TLayer.name : TLayer → String | .mk _ v _ _ _ _ _ _ _ => v
def TLayer.type : TLayer → LKind | .mk _ _ v _ _ _ _ _ _ => v
def TLayer.isVisible : TLayer → Bool | .mk _ _ _ v _ _ _ _ _ => v
def TLayer.opacity : TLayer → ℚ | .mk _ _ _ _ v _ _ _ _ => v
def TLayer.coords : TLayer → Rect | .mk _ _ _ _ _ v _ _ _ => v
def TLayer.transform : TLayer → Transform4 | .mk _ _ _ _ _ _ v _ _ => v
def TLayer.children : TLayer → Option (List TLayer) | .mk _ _ _ _ _ _ _ v _ => v
def TLayer.generativePrompt : TLayer → Option String | .mk _ _ _ _ _ _ _ _ v => v

/-! ### Layer-tree resolver (src `usePsdResolver`, `src/unnamed/part_006`) -/

/-- The six diagnostic statuses (plus the declared-but-unused
`UNKNOWN_ERROR`) of the resolver. -/
inductive RStatus where
  | RESOLVED
  | CASE_MISMATCH
  | MISSING_DESIGN_GROUP
  | EMPTY_GROUP
  | DATA_LOCKED
  | NO_NAME
  | UNKNOWN_ERROR
  deriving DecidableEq, Repr

/-- Result record of `resolveLayer` (`totalCount` is always set by the code,
so it is modelled as a plain `Nat`). -/
structure ResolverResult where
  layer : Option SLayer
  status : RStatus
  message : String
  totalCount : Nat

/-- JS `String.prototype.toLowerCase` (per-character lowering). -/
def lowerStr (s : String) : String := String.mk (s.data.map Char.toLower)

/-- `findLayerDeep`: pre-order depth-first search, first match wins;
recurses into `children` only when the field is defined and non-empty. -/
def findLayerDeep (tree : List SLayer) (target : String) (caseSensitive : Bool) :
    Option SLayer :=
  match tree with
  | [] => none
  | (SLayer.mk i nm ty vis op co ch) :: rest =>
    let layerName := nm
    let isMatch : Bool := if caseSensitive then layerName = target
                          else lowerStr layerName = lowerStr target
    if isMatch then some (SLayer.mk i nm ty vis op co ch)
    else
      match ch with
      | some kids =>
        if kids.length > 0 then
          match findLayerDeep kids target caseSensitive with
          | some found => some found
          | none => findLayerDeep rest target caseSensitive
        else findLayerDeep rest target caseSensitive
      | none => findLayerDeep rest target caseSensitive

/-- `getRecursiveLeafCount`: groups sum their children's counts (0 when the
`children` field is absent or empty); any non-group node counts 1. -/
def getRecursiveLeafCount : SLayer → Nat
  | .mk _ _ ty _ _ _ ch =>
    if ty ≠ LKind.group then 1
    else
      match ch with
      | none => 0
      | some kids =>
        if kids.length = 0 then 0
        else leafCountSum kids
where
  /-- Sum of the recursive leaf counts of a list of layers
  (`children.reduce((sum, c) => sum + count(c), 0)`). -/
  leafCountSum : List SLayer → Nat
  | [] => 0
  | l :: rest => getRecursiveLeafCount l + leafCountSum rest

/-- JS `'!'`-prefix strip then `trim`:
`templateName.replace(/^!+/, '').trim()`. -/
def stripBangTrim (s : String) : String :=
  String.mk ((((s.data.dropWhile (· = '!')).dropWhile Char.isWhitespace).reverse.dropWhile
    Char.isWhitespace).reverse)

/-- `resolveLayer` (src `usePsdResolver.resolveLayer`): strict-then-loose deep
search with recursive-emptiness validation and diagnostic statuses. -/
def resolveLayer (templateName : String) (designTree : Option (List SLayer)) :
    ResolverResult :=
  match designTree with
  | none =>
    { status := RStatus.DATA_LOCKED, layer := none,
      message := "Waiting for layer data...", totalCount := 0 }
  | some tree =>
    if templateName = "" then
      { status := RStatus.NO_NAME, layer := none,
        message := "No container connected", totalCount := 0 }
    else
      let cleanTargetName := stripBangTrim templateName
      if cleanTargetName = "" then
        { status := RStatus.NO_NAME, layer := none,
          message := "Invalid name", totalCount := 0 }
      else
        match findLayerDeep tree cleanTargetName true with
        | some strictMatch =>
          let totalCount := getRecursiveLeafCount strictMatch
          if totalCount = 0 then
            { status := RStatus.EMPTY_GROUP, layer := some strictMatch,
              message := "Group is empty", totalCount := 0 }
          else
            { status := RStatus.RESOLVED, layer := some strictMatch,
              message := natToString totalCount ++ " Layers Found",
              totalCount := totalCount }
        | none =>
          match findLayerDeep tree cleanTargetName false with
          | some looseMatch =>
            let totalCount := getRecursiveLeafCount looseMatch
            if totalCount = 0 then
              { status := RStatus.EMPTY_GROUP, layer := some looseMatch,
                message := "Empty (Case Mismatch)", totalCount := 0 }
            else
              { status := RStatus.CASE_MISMATCH, layer := some looseMatch,
                message := "Warning: Case Mismatch (" ++ natToString totalCount
                  ++ " Layers)",
                totalCount := totalCount }
          | none =>
            { status := RStatus.MISSING_DESIGN_GROUP, layer := none,
              message := "No group named \"" ++ cleanTargetName ++ "\"",
              totalCount := 0 }

/-! ### The spec's reference resolver algorithm (claim C7)

Written from the specification's words, to be compared with
`resolveLayer` above.  It is parameterized by the name-normalization
step so that both the claim's literal normalization (strip leading `'!'`
markers only) and the amended one (strip then trim) can be stated. -/

/-- The strict name predicate of the spec's search: exact, case-sensitive. -/
def strictPred (target : String) : SLayer → Bool := fun l => l.name = target

/-- The loose name predicate of the spec's search: case-insensitive. -/
def loosePred (target : String) : SLayer → Bool :=
  fun l => lowerStr l.name = lowerStr target

/-- The name predicate `findLayerDeep` evaluates, as a function of its
`caseSensitive` flag. -/
def matchPred (cs : Bool) (target : String) : SLayer → Bool :=
  fun l => if cs then l.name = target else lowerStr l.name = lowerStr target

/-- Spec wording: pre-order depth-first first match of a predicate,
parent before children, siblings in array order. -/
def specFirstMatch (p : SLayer → Bool) : List SLayer → Option SLayer
  | [] => none
  | (SLayer.mk i nm ty vis op co ch) :: rest =>
    if p (SLayer.mk i nm ty vis op co ch) then some (SLayer.mk i nm ty vis op co ch)
    else
      match ch with
      | some kids =>
        match specFirstMatch p kids with
        | some found => some found
        | none => specFirstMatch p rest
      | none => specFirstMatch p rest

/-- Spec wording: recursive leaf count — a group counts the sum of its
children's counts (0 if childless); a non-group node always counts 1. -/
def specLeafCount : SLayer → Nat
  | .mk _ _ ty _ _ _ ch =>
    if ty = LKind.group then
      match ch with
      | some kids => specLeafCountSum kids
      | none => 0
    else 1
where
  /-- Sum of spec leaf counts over a list of children. -/
  specLeafCountSum : List SLayer → Nat
  | [] => 0
  | l :: rest => specLeafCount l + specLeafCountSum rest

/-- Output triple of the spec's reference algorithm. -/
structure SpecResolveOut where
  status : RStatus
  layer : Option SLayer
  count : Nat

/-- The spec's six-status reference algorithm, parameterized by the
name-normalization function `strip`. -/
def specResolve (strip : String → String) (templateName : String)
    (designTree : Option (List SLayer)) : SpecResolveOut :=
  match designTree with
  | none => { status := RStatus.DATA_LOCKED, layer := none, count := 0 }
  | some tree =>
    let stripped := strip templateName
    if stripped = "" then
      { status := RStatus.NO_NAME, layer := none, count := 0 }
    else
      match specFirstMatch (strictPred stripped) tree with
      | some strict =>
        let c := specLeafCount strict
        if c = 0 then
          { status := RStatus.EMPTY_GROUP, layer := some strict, count := 0 }
        else
          { status := RStatus.RESOLVED, layer := some strict, count := c }
      | none =>
        match specFirstMatch (loosePred stripped) tree with
        | some loose =>
          let c := specLeafCount loose
          if c = 0 then
            { status := RStatus.EMPTY_GROUP, layer := some loose, count := 0 }
          else
            { status := RStatus.CASE_MISMATCH, layer := some loose, count := c }
        | none =>
          { status := RStatus.MISSING_DESIGN_GROUP, layer := none, count := 0 }

/-- The claim's literal normalization: strip leading `'!'` markers only. -/
def stripBangsOnly (s : String) : String := String.mk (s.data.dropWhile (· = '!'))

/-! ### Raw parsed document model (`ag-psd` `Psd`/`Layer`) -/

/-- A raw `ag-psd` layer: every field may be absent. -/
inductive RawLayer where
  | mk (name : Option String) (top : Option ℚ) (left : Option ℚ)
      (bottom : Option ℚ) (right : Option ℚ) (hidden : Option Bool)
      (opacity : Option ℚ) (children : Option (List RawLayer))

def RawLayer.name : RawLayer → Option String | .mk v _ _ _ _ _ _ _ => v
def RawLayer.top : RawLayer → Option ℚ | .mk _ v _ _ _ _ _ _ => v
def RawLayer.left : RawLayer → Option ℚ | .mk _ _ v _ _ _ _ _ => v
def RawLayer.bottom : RawLayer → Option ℚ | .mk _ _ _ v _ _ _ _ => v
def RawLayer.right : RawLayer → Option ℚ | .mk _ _ _ _ v _ _ _ => v
def RawLayer.hidden : RawLayer → Option Bool | .mk _ _ _ _ _ v _ _ => v
def RawLayer.opacity : RawLayer → Option ℚ | .mk _ _ _ _ _ _ v _ => v
def RawLayer.children : RawLayer → Option (List RawLayer) | .mk _ _ _ _ _ _ _ v => v

/-- A raw parsed document: canvas dimensions and root layer list. -/
structure RawPsd where
  width : Option ℚ
  height : Option ℚ
  children : Option (List RawLayer)

/-! ### Container extractor (src `psdService.extractTemplateMetadata`) -/

/-- `ContainerDefinition` (without UI-only fields). -/
structure ContainerDefinition where
  id : String
  name : String
  originalName : String
  bounds : Rect
  normalized : Rect
  deriving Repr

/-- Canvas dimensions of a template. -/
structure CanvasDim where
  width : ℚ
  height : ℚ
  deriving DecidableEq, Repr

/-- `TemplateMetadata`. -/
structure TemplateMetadata where
  canvas : CanvasDim
  containers : List ContainerDefinition
  deriving Repr

/-- JS `s.replace(/\s+/g, '_')`: each maximal whitespace run becomes one
underscore. -/
def collapseWs : List Char → List Char
  | [] => []
  | c :: cs =>
    if c.isWhitespace then '_' :: collapseWs (cs.dropWhile Char.isWhitespace)
    else c :: collapseWs cs
  termination_by cs => cs.length
  decreasing_by
  · have hle : ∀ (l : List Char), (l.dropWhile Char.isWhitespace).length ≤ l.length := by
      intro l
      induction l with
      | nil => simp [List.dropWhile]
      | cons a as ih =>
        by_cases ha : Char.isWhitespace a
        · rw [List.dropWhile_cons, if_pos ha]
          exact ih.trans (by simp)
        · rw [List.dropWhile_cons, if_neg ha]
    have := hle cs
    simp only [List.length_cons]
    omega
  · simp only [List.length_cons]
    omega

/-- JS `s.replace(/^!!/, '')`: drop one leading `"!!"` occurrence. -/
def stripBangBang (s : String) : String :=
  match s.data with
  | '!' :: '!' :: rest => String.mk rest
  | _ => s

/-- `name || 'Untitled'` on a raw layer name. -/
def rawNameOr (nm : Option String) (dflt : String) : String :=
  match nm with
  | some s => if s ≠ "" then s else dflt
  | none => dflt

/-- One container emitted by `extractTemplateMetadata` for the marker
group's child at `index`. -/
def mkContainer (canvasW canvasH : ℚ) (index : Nat) (child : RawLayer) :
    ContainerDefinition :=
  let top := child.top.getD 0
  let left := child.left.getD 0
  let bottom := child.bottom.getD 0
  let right := child.right.getD 0
  let width := right - left
  let height := bottom - top
  let rawName := rawNameOr child.name "Untitled"
  let cleanName := stripBangBang rawName
  { id := "container-" ++ natToString index ++ "-"
      ++ String.mk (collapseWs cleanName.data),
    name := cleanName,
    originalName := rawName,
    bounds := ⟨left, top, width, height⟩,
    normalized := ⟨left / canvasW, top / canvasH, width / canvasW, height / canvasH⟩ }

/-- `extractTemplateMetadata`: find the `'!!TEMPLATE'` marker group among the
document's direct children and emit one container per direct child of that
group, in document order. -/
def extractTemplateMetadata (psd : RawPsd) : TemplateMetadata :=
  let canvasWidth := match psd.width with
    | some w => if w ≠ 0 then w else 1
    | none => 1
  let canvasHeight := match psd.height with
    | some h => if h ≠ 0 then h else 1
    | none => 1
  let templateGroup :=
    match psd.children with
    | some cs => cs.find? (fun c : RawLayer => c.name = some "!!TEMPLATE")
    | none => none
  let containers :=
    match templateGroup with
    | some g =>
      match g.children with
      | some kids => kids.mapIdx (fun i c => mkContainer canvasWidth canvasHeight i c)
      | none => []
    | none => []
  { canvas := { width := canvasWidth, height := canvasHeight },
    containers := containers }

/-! ### Clean layer tree and deterministic path ids
(src `psdService.getCleanLayerTree` / `findLayerByPath`) -/

/-- `getCleanLayerTree` body: walk a raw children array carrying the running
index (JS `forEach` index), skipping `'!!TEMPLATE'`-named nodes while still
advancing the index, and building dot-separated index-path ids. -/
def cleanTreeGo : List RawLayer → String → Nat → List SLayer
  | [], _, _ => []
  | (RawLayer.mk nm top left bottom right hidden opac ch) :: rest, path, index =>
    if nm = some "!!TEMPLATE" then cleanTreeGo rest path (index + 1)
    else
      let currentPath := if path ≠ "" then path ++ "." ++ natToString index
                         else natToString index
      let t := top.getD 0
      let l := left.getD 0
      let b := bottom.getD 0
      let r := right.getD 0
      let node := SLayer.mk currentPath
        (rawNameOr nm ("Layer " ++ natToString index))
        (if ch.isSome then LKind.group else LKind.layer)
        (! truthyOB hidden)
        ((opac.getD 255) / 255)
        ⟨l, t, r - l, b - t⟩
        (match ch with
         | some kids => some (cleanTreeGo kids currentPath 0)
         | none => none)
      node :: cleanTreeGo rest path (index + 1)

/-- `getCleanLayerTree` with its default starting path `''`. -/
def getCleanLayerTree (layers : List RawLayer) (path : String := "") : List SLayer :=
  cleanTreeGo layers path 0

/-- JS `s.split('.')` on character lists. -/
def splitDot : List Char → List (List Char)
  | [] => [[]]
  | c :: rest =>
    if c = '.' then [] :: splitDot rest
    else
      match splitDot rest with
      | g :: gs => (c :: g) :: gs
      | [] => [[c]]

/-- JS `Number(s)` used as an array index: a digits-only string (including
the empty string) parses; anything else is `NaN`, modelled as `none`. -/
def jsNumberNat (cs : List Char) : Option Nat :=
  if cs.all Char.isDigit then some (parseDigits cs) else none

/-- The `for` loop of `findLayerByPath`: walk successive `children` arrays by
index; a missing array, bad index, or out-of-range index aborts with `none`. -/
def walkPath : Option (List RawLayer) → List (Option Nat) → Option RawLayer →
    Option RawLayer
  | _, [], tgt => tgt
  | cur, i? :: rest, _ =>
    match cur with
    | none => none
    | some layers =>
      match i? with
      | none => none
      | some i =>
        match layers[i]? with
        | none => none
        | some l => walkPath l.children rest (some l)

/-- `findLayerByPath`: locate a raw layer from a dot-separated index path. -/
def findLayerByPath (psd : RawPsd) (pathId : String) : Option RawLayer :=
  if pathId = "" then none
  else walkPath psd.children ((splitDot pathId.data).map jsNumberNat) none

/-! ### Geometric transform engine (src `RemapperNode.transformLayers`) -/

/-- `MAX_BOUNDARY_VIOLATION_PERCENT` (src `types`). -/
def MAX_BOUNDARY_VIOLATION_PERCENT : ℚ := 3 / 100

/-- `LayerOverride`. -/
structure LayerOverride where
  layerId : String
  xOffset : ℚ
  yOffset : ℚ
  individualScale : ℚ
  deriving DecidableEq, Repr

/-- `anchor` field of a layout strategy. -/
inductive Anchor where
  | TOP
  | CENTER
  | BOTTOM
  | STRETCH
  deriving DecidableEq, Repr

/-- `method` field of a layout strategy. -/
inductive SMethod where
  | GEOMETRIC
  | GENERATIVE
  | HYBRID
  deriving DecidableEq, Repr

/-- `LayoutStrategy` (fields relevant to the geometry/reconciliation core). -/
structure LayoutStrategy where
  method : Option SMethod
  suggestedScale : ℚ
  anchor : Anchor
  generativePrompt : String
  reasoning : String
  overrides : Option (List LayerOverride)
  isExplicitIntent : Option Bool
  clearance : Option Bool
  generationAllowed : Option Bool
  sourceReference : Option String
  knowledgeApplied : Option Bool
  knowledgeMuted : Option Bool
  deriving Repr

/-- The scale and anchor chosen by the Remapper before per-layer placement:
fit-scale with centered anchors when no strategy is attached, otherwise the
strategy's `suggestedScale` with centered X anchor and `anchor`-dependent Y. -/
def computeScaleAnchor (sourceRect targetRect : Rect)
    (strategy : Option LayoutStrategy) : ℚ × ℚ × ℚ :=
  let ratioX := targetRect.w / sourceRect.w
  let ratioY := targetRect.h / sourceRect.h
  match strategy with
  | some st =>
    let scale := st.suggestedScale
    let scaledW := sourceRect.w * scale
    let scaledH := sourceRect.h * scale
    let anchorX := targetRect.x + (targetRect.w - scaledW) / 2
    let anchorY :=
      if st.anchor = Anchor.TOP then targetRect.y
      else if st.anchor = Anchor.BOTTOM then targetRect.y + (targetRect.h - scaledH)
      else targetRect.y + (targetRect.h - scaledH) / 2
    (scale, anchorX, anchorY)
  | none =>
    let scale := min ratioX ratioY
    let scaledW := sourceRect.w * scale
    let scaledH := sourceRect.h * scale
    let anchorX := targetRect.x + (targetRect.w - scaledW) / 2
    let anchorY := targetRect.y + (targetRect.h - scaledH) / 2
    (scale, anchorX, anchorY)

/-- `strategy?.overrides?.find(o => o.layerId === layer.id)`. -/
def overrideFor (strategy : Option LayoutStrategy) (lid : String) :
    Option LayerOverride :=
  match strategy with
  | some st =>
    match st.overrides with
    | some os => os.find? (fun o : LayerOverride => o.layerId = lid)
    | none => none
  | none => none

/-- The boundary clamp: `Math.max(minY, Math.min(finalY, maxY))` with
`bleedY = targetRect.h * MAX_BOUNDARY_VIOLATION_PERCENT`. -/
def clampY (targetRect : Rect) (y : ℚ) : ℚ :=
  let bleedY := targetRect.h * MAX_BOUNDARY_VIOLATION_PERCENT
  let minY := targetRect.y - bleedY
  let maxY := targetRect.y + targetRect.h + bleedY
  max minY (min y maxY)

/-- `transformLayers`: project each source layer rigidly by scale/anchor,
replace the position (and compound the scale) when a per-layer override
matches, then clamp the vertical position into the bleed interval. -/
def transformLayers (sourceRect targetRect : Rect)
    (strategy : Option LayoutStrategy) :
    List SLayer → ℚ → ℚ → List TLayer
  | [], _, _ => []
  | (SLayer.mk lid nm ty vis op co ch) :: rest, parentDeltaX, parentDeltaY =>
    let sa := computeScaleAnchor sourceRect targetRect strategy
    let scale := sa.1
    let anchorX := sa.2.1
    let anchorY := sa.2.2
    let relX := (co.x - sourceRect.x) / sourceRect.w
    let relY := (co.y - sourceRect.y) / sourceRect.h
    let geomX := anchorX + relX * (sourceRect.w * scale)
    let geomY := anchorY + relY * (sourceRect.h * scale)
    let override := overrideFor strategy lid
    let finalX := match override with
      | some o => targetRect.x + o.xOffset
      | none => geomX + parentDeltaX
    let finalY0 := match override with
      | some o => targetRect.y + o.yOffset
      | none => geomY + parentDeltaY
    let layerScaleX := match override with
      | some o => scale * o.individualScale
      | none => scale
    let layerScaleY := match override with
      | some o => scale * o.individualScale
      | none => scale
    let finalY := clampY targetRect finalY0
    let newW := co.w * layerScaleX
    let newH := co.h * layerScaleY
    TLayer.mk lid nm ty vis op
      ⟨finalX, finalY, newW, newH⟩
      ⟨layerScaleX, layerScaleY, finalX, finalY⟩
      (match ch with
       | some kids =>
         some (transformLayers sourceRect targetRect strategy kids
           parentDeltaX parentDeltaY)
       | none => none)
      none
    :: transformLayers sourceRect targetRect strategy rest parentDeltaX parentDeltaY

/-! ### Reconciliation store (src `ProceduralContext.reconcileTerminalState`) -/

/-- `status` field of a transformed payload. -/
inductive PStatus where
  | success
  | error
  | idle
  | awaiting_confirmation
  deriving DecidableEq, Repr

/-- `TransformedPayload`: the unit exchanged between producer and consumer
nodes.  Optional JS fields are `Option`s. -/
structure TransformedPayload where
  status : PStatus
  sourceNodeId : String
  sourceContainer : String
  targetContainer : String
  layers : List TLayer
  scaleFactor : ℚ
  metrics : Metrics
  requiresGeneration : Option Bool
  previewUrl : Option String
  isConfirmed : Option Bool
  isTransient : Option Bool
  isSynthesizing : Option Bool
  sourceReference : Option String
  generationId : Option ℚ
  generationAllowed : Option Bool

/-- The stale guard's condition:
`currentPayload?.generationId && incomingPayload.generationId &&
incomingPayload.generationId < currentPayload.generationId`
(JS number truthiness: a present-but-zero `generationId` does not count). -/
def staleIncoming (incoming : TransformedPayload)
    (current : Option TransformedPayload) : Bool :=
  match current with
  | some cur =>
    match cur.generationId, incoming.generationId with
    | some a, some b => a ≠ 0 && b ≠ 0 && b < a
    | _, _ => false
  | none => false

/-- Rule 6 of the merge (`FINAL CONSTRUCTION`): candidate fields with
`sourceReference`/`generationId` backfilled from current and the computed
confirmation flag. -/
def reconcileFinal (incoming : TransformedPayload)
    (current : Option TransformedPayload) (isConfirmedV : Bool) :
    TransformedPayload :=
  { incoming with
    isConfirmed := some isConfirmedV,
    sourceReference := jsOrOS incoming.sourceReference
      (current.bind TransformedPayload.sourceReference),
    generationId := jsOrON incoming.generationId
      (current.bind TransformedPayload.generationId),
    generationAllowed := some true }

/-- `reconcileTerminalState`: the deterministic merge of a candidate payload
against the currently stored one, in the source's rule order — generation
gate, stale guard, idle sanitation, synthesis flush, confirmation guard,
geometric preservation, final construction. -/
def reconcileTerminalState (incoming : TransformedPayload)
    (current : Option TransformedPayload) : TransformedPayload :=
  -- 0. GENERATIVE LOGIC GATE: HARD STOP
  if incoming.generationAllowed = some false then
    { incoming with
      previewUrl := none,
      isConfirmed := some false,
      isTransient := some false,
      isSynthesizing := some false,
      requiresGeneration := some false,
      layers := incoming.layers.filter (fun l => l.type ≠ LKind.generative) }
  -- 1. STALE GUARD
  else if staleIncoming incoming current then
    current.getD incoming
  -- 2. SANITATION (Geometric Reset)
  else if incoming.status = PStatus.idle then
    { incoming with
      previewUrl := none,
      isConfirmed := some false,
      isTransient := some false,
      isSynthesizing := some false }
  -- 3. FLUSH PHASE (Start Synthesis)
  else if truthyOB incoming.isSynthesizing then
    { current.getD incoming with
      isSynthesizing := some true,
      previewUrl := current.bind TransformedPayload.previewUrl,
      sourceReference := jsOrOS incoming.sourceReference
        (current.bind TransformedPayload.sourceReference),
      targetContainer := jsOrS incoming.targetContainer
        (current.map TransformedPayload.targetContainer),
      metrics := incoming.metrics,
      generationId := current.bind TransformedPayload.generationId,
      generationAllowed := some true }
  else
    -- 4. REFINEMENT PERSISTENCE (State Guard)
    let isConfirmed0 : Bool :=
      (jsNullish incoming.isConfirmed
        (current.bind TransformedPayload.isConfirmed)).getD false
    let isConfirmedV : Bool :=
      if truthyOB incoming.isTransient then false else isConfirmed0
    -- 5. GEOMETRIC PRESERVATION
    match current with
    | some cur =>
      if ¬ truthyON incoming.generationId ∧ truthyON cur.generationId then
        { incoming with
          previewUrl := cur.previewUrl,
          generationId := cur.generationId,
          isSynthesizing := cur.isSynthesizing,
          isConfirmed := cur.isConfirmed,
          isTransient := cur.isTransient,
          sourceReference := jsOrOS cur.sourceReference incoming.sourceReference,
          generationAllowed := some true }
      else reconcileFinal incoming (some cur) isConfirmedV
    | none => reconcileFinal incoming none isConfirmedV

/-! ### Document assembler (src `ExportPSDNode`) -/

/-- An output layer of the assembler: the original raw layer it was spread
from (`none` for synthetic generative layers) plus the overridden fields. -/
inductive OutLayer (α : Type) where
  | mk (orig : Option RawLayer) (name : Option String)
      (top : ℚ) (left : ℚ) (bottom : ℚ) (right : ℚ)
      (hidden : Bool) (opacity : ℚ) (canvas : Option α)
      (children : Option (List (OutLayer α))) (opened : Bool)

def OutLayer.orig {α : Type} : OutLayer α → Option RawLayer
  | .mk v _ _ _ _ _ _ _ _ _ _ => v
def OutLayer.lname {α : Type} : OutLayer α → Option String
  | .mk _ v _ _ _ _ _ _ _ _ _ => v
def OutLayer.canvas {α : Type} : OutLayer α → Option α
  | .mk _ _ _ _ _ _ _ _ v _ _ => v
def OutLayer.children {α : Type} : OutLayer α → Option (List (OutLayer α))
  | .mk _ _ _ _ _ _ _ _ _ v _ => v

/-- The asset lookup priority for one confirmed generative layer: decode the
payload's `previewUrl` when it is truthy, otherwise fall back to a
generation call; a failed resolution contributes no asset. -/
def assetFor {α : Type} (d : String → Rect → Option α)
    (g : String → Rect → Option String → Option α)
    (P : TransformedPayload) (lid : String) (co : Rect) (gp : Option String) :
    List (String × α) :=
  if truthyOS P.previewUrl then
    match d (P.previewUrl.getD "") co with
    | some c => [(lid, c)]
    | none => []
  else
    match g (gp.getD "") co P.sourceReference with
    | some c => [(lid, c)]
    | none => []

/-- `findGenerativeLayers` (synthesis phase) for one payload: collect the
assets resolved for its generative layers, in traversal order.  `d` models
`base64ToCanvas` on the payload's `previewUrl` (it may fail, yielding no
asset); `g` models the fallback `generateLayerImage` call. -/
def collectAssets {α : Type} (d : String → Rect → Option α)
    (g : String → Rect → Option String → Option α)
    (P : TransformedPayload) : List TLayer → List (String × α)
  | [] => []
  | (TLayer.mk lid _nm ty _vis _op co _tr ch gp) :: rest =>
    let here : List (String × α) :=
      if ty = LKind.generative ∧ truthyOS gp ∧ truthyOB P.isConfirmed then
        assetFor d g P lid co gp
      else []
    here
      ++ (match ch with
          | some kids => collectAssets d g P kids
          | none => [])
      ++ collectAssets d g P rest

/-- `Map.get` over the collected `(id, asset)` writes: the last write wins. -/
def lookupAssets {α : Type} : List (String × α) → String → Option α
  | [], _ => none
  | (i, c) :: rest, k =>
    match lookupAssets rest k with
    | some c' => some c'
    | none => if i = k then some c else none

/-- `if (newLayer) resultLayers.push(newLayer)`: prepend an optional layer. -/
def consOpt {β : Type} (o : Option β) (tail : List β) : List β :=
  match o with
  | some b => b :: tail
  | none => tail

/-- `reconstructHierarchy`: rebuild output layers from a transformed tree —
a generative layer becomes a synthetic pixel layer if (and only if) an asset
resolved for its id; a normal layer is cloned from the source document via
its path id (dropped when the lookup fails), recursing into groups. -/
def reconstructHierarchy {α : Type} (assets : String → Option α)
    (sourcePsd : Option RawPsd) : List TLayer → List (OutLayer α)
  | [] => []
  | (TLayer.mk lid nm ty vis op co _tr ch _gp) :: rest =>
    let kidsOut : List (OutLayer α) :=
      match ch with
      | some kids => reconstructHierarchy assets sourcePsd kids
      | none => []
    let newLayer : Option (OutLayer α) :=
      if ty = LKind.generative then
        (assets lid).map (fun a =>
          OutLayer.mk none (some nm) co.y co.x (co.y + co.h) (co.x + co.w)
            (! vis) (op * 255) (some a) none false)
      else
        sourcePsd.bind (fun psd =>
          (findLayerByPath psd lid).map (fun origL =>
            if ty = LKind.group ∧ ch.isSome then
              OutLayer.mk (some origL) origL.name co.y co.x (co.y + co.h)
                (co.x + co.w) (! vis) (op * 255) none (some kidsOut) true
            else
              OutLayer.mk (some origL) origL.name co.y co.x (co.y + co.h)
                (co.x + co.w) (! vis) (op * 255) none none false))
    consOpt newLayer (reconstructHierarchy assets sourcePsd rest)

/-- The synthesis loop of `handleExport`: one `generatedAssets` map is filled
over all containers in order, each connected payload appending its confirmed
generative assets (`lookupAssets` gives a later `set` priority over an earlier
one, matching map overwrite). An empty slot is skipped. -/
def exportAssets {α : Type} (d : String → Rect → Option α)
    (g : String → Rect → Option String → Option α) :
    List (Option TransformedPayload) → List (String × α)
  | [] => []
  | none :: rest => exportAssets d g rest
  | some P :: rest => collectAssets d g P P.layers ++ exportAssets d g rest

/-- The assembly loop of `handleExport`: each populated container's tree is
rebuilt against ONE assets map shared across the whole export, with the
payload's own source PSD looked up in the registry by `sourceNodeId`. -/
def assembleSlots {α : Type} (assets : String → Option α)
    (reg : String → Option RawPsd) :
    List (Option TransformedPayload) → List (List (OutLayer α))
  | [] => []
  | none :: rest => assembleSlots assets reg rest
  | some P :: rest =>
    reconstructHierarchy assets (reg P.sourceNodeId) P.layers
      :: assembleSlots assets reg rest

/-- `handleExport`'s synthesis and assembly phases over the ordered slot list:
the shared `generatedAssets` map is built from every connected payload, then
every payload's tree is reconstructed against that same shared map. -/
def exportAssemble {α : Type} (d : String → Rect → Option α)
    (g : String → Rect → Option String → Option α)
    (reg : String → Option RawPsd)
    (slots : List (Option TransformedPayload)) : List (List (OutLayer α)) :=
  assembleSlots (fun k => lookupAssets (exportAssets d g slots) k) reg slots

/-! ### Tree-node collectors (used to state recursive properties) -/

/-- All nodes of a transformed layer tree, the roots included. -/
def allTL : List TLayer → List TLayer
  | [] => []
  | (TLayer.mk lid nm ty vis op co tr ch gp) :: rest =>
    TLayer.mk lid nm ty vis op co tr ch gp
      :: ((match ch with
           | some kids => allTL kids
           | none => []) ++ allTL rest)

/-- The ids of all transformed layers of all connected payloads, in slot order. -/
def exportIds : List (Option TransformedPayload) → List String
  | [] => []
  | none :: rest => exportIds rest
  | some P :: rest => (allTL P.layers).map TLayer.id ++ exportIds rest

/-- All nodes of an assembler output forest, the roots included. -/
def allOut {α : Type} : List (OutLayer α) → List (OutLayer α)
  | [] => []
  | (OutLayer.mk og nm t l b r hd op cv ch opn) :: rest =>
    OutLayer.mk og nm t l b r hd op cv ch opn
      :: ((match ch with
           | some kids => allOut kids
           | none => []) ++ allOut rest)

/-- All nodes of a clean (serializable) layer forest, the roots included. -/
def allSL : List SLayer → List SLayer
  | [] => []
  | (SLayer.mk i nm ty vis op co ch) :: rest =>
    SLayer.mk i nm ty vis op co ch
      :: ((match ch with
           | some kids => allSL kids
           | none => []) ++ allSL rest)

/-- Whether a transformed layer forest contains (at any depth) a layer of
kind `generative`. -/
def containsGenerativeTL : List TLayer → Bool
  | [] => false
  | (TLayer.mk _ _ ty _ _ _ _ ch _) :: rest =>
    ty = LKind.generative
      || (match ch with
          | some kids => containsGenerativeTL kids
          | none => false)
      || containsGenerativeTL rest

/-- The spec's gate invariant on a stored payload:
`generationAllowed === false` implies no top-level generative layers and no
preview URL. -/
def storedGateInv (p : TransformedPayload) : Prop :=
  p.generationAllowed = some false →
    (∀ l ∈ p.layers, l.type ≠ LKind.generative) ∧ p.previewUrl = none

/-- Absence of the forbidden `isTransient ∧ isConfirmed` combination on a
payload. -/
def transientConfirmedFree (p : TransformedPayload) : Prop :=
  ¬ (truthyOB p.isTransient = true ∧ truthyOB p.isConfirmed = true)

/-! ### Path-identity helpers (claim C10) -/

/-- Join decimal components with `'.'` separators. -/
def joinDots : List (List Char) → List Char
  | [] => []
  | [x] => x
  | x :: y :: xs => x ++ '.' :: joinDots (y :: xs)

/-- The dot-separated index-path string of an index list. -/
def pathStr (ids : List Nat) : String :=
  String.mk (joinDots (ids.map natToChars))

/-- Descend a chain of raw `children` arrays by successive indices, returning
the children array reached at the end. -/
def descend : Option (List RawLayer) → List Nat → Option (List RawLayer)
  | cur, [] => cur
  | cur, i :: is =>
    match cur with
    | none => none
    | some ls =>
      match ls[i]? with
      | none => none
      | some l => descend l.children is

/-- The coordinates a clean node takes from a raw layer. -/
def rectOfRaw (raw : RawLayer) : Rect :=
  ⟨raw.left.getD 0, raw.top.getD 0,
   (raw.right.getD 0) - (raw.left.getD 0),
   (raw.bottom.getD 0) - (raw.top.getD 0)⟩

/-- The kind a clean node takes from a raw layer. -/
def kindOfRaw (raw : RawLayer) : LKind :=
  if raw.children.isSome then LKind.group else LKind.layer

/-- `n` was derived from the raw layer that `findLayerByPath` re-locates at
`n.id`: the lookup succeeds and returns a layer carrying exactly the data
`n` was built from, `n`'s children being the clean tree of its children. -/
def cleanDerived (psd : RawPsd) (n : SLayer) : Prop :=
  ∃ raw, findLayerByPath psd n.id = some raw
    ∧ n.coords = rectOfRaw raw
    ∧ n.type = kindOfRaw raw
    ∧ n.isVisible = ! truthyOB raw.hidden
    ∧ n.opacity = (raw.opacity.getD 255) / 255
    ∧ n.children = (match raw.children with
        | some kids => some (cleanTreeGo kids n.id 0)
        | none => none)

/-! ### Concrete example inputs for witnesses and counterexamples -/

/-- A minimal successful payload used to build concrete merge examples. -/
def basePayload : TransformedPayload :=
  { status := PStatus.success, sourceNodeId := "n1", sourceContainer := "SRC",
    targetContainer := "TGT", layers := [], scaleFactor := 1,
    metrics := ⟨⟨100, 100⟩, ⟨50, 50⟩⟩,
    requiresGeneration := none, previewUrl := none, isConfirmed := none,
    isTransient := none, isSynthesizing := none, sourceReference := none,
    generationId := none, generationAllowed := none }

/-- A concrete generative transformed layer. -/
def genLayerEx : TLayer :=
  TLayer.mk "gen-layer-SRC" "gen" LKind.generative true 1
    ⟨0, 0, 10, 10⟩ ⟨1, 1, 0, 0⟩ none (some "a prompt")

/-- A concrete group layer holding a nested generative child. -/
def grpWithGenEx : TLayer :=
  TLayer.mk "0" "grp" LKind.group true 1
    ⟨0, 0, 10, 10⟩ ⟨1, 1, 0, 0⟩ (some [genLayerEx]) none

/-- A concrete 100×100 source container at the origin. -/
def src100 : Rect := ⟨0, 0, 100, 100⟩

/-- A concrete 100×100 target container at the origin. -/
def tgt100 : Rect := ⟨0, 0, 100, 100⟩

/-- A layout strategy with `suggestedScale = 1`, centered anchor, and a
single per-layer override. -/
def stratWith (o : LayerOverride) : LayoutStrategy :=
  { method := none, suggestedScale := 1, anchor := Anchor.CENTER,
    generativePrompt := "", reasoning := "", overrides := some [o],
    isExplicitIntent := none, clearance := none, generationAllowed := none,
    sourceReference := none, knowledgeApplied := none, knowledgeMuted := none }

/-- A concrete layer whose geometric projection under `src100 → tgt100`
at scale 1 is `(10, 10)`. -/
def layerA : SLayer := SLayer.mk "a" "A" LKind.layer true 1 ⟨10, 10, 10, 10⟩ none

/-- The override of the spec's example: replace the position with `(5, 5)`. -/
def ovA : LayerOverride := ⟨"a", 5, 5, 1⟩

/-- An override displacing the layer far below the target. -/
def ovBigY : LayerOverride := ⟨"a", 0, 200, 1⟩

/-- An override displacing the layer far to the right of the target. -/
def ovHugeX : LayerOverride := ⟨"a", 1000, 0, 1⟩


/-- The `!!HERO` child of the example marker group: a 200×100 box at the
origin. -/
def heroEx : RawLayer :=
  RawLayer.mk (some "!!HERO") (some 0) (some 0) (some 100) (some 200)
    none none none

/-- An example `!!TEMPLATE` marker group holding `heroEx`. -/
def tmplGroupEx : RawLayer :=
  RawLayer.mk (some "!!TEMPLATE") none none none none none none
    (some [heroEx])

/-- An example parsed document: an 800×400 canvas whose only child is the
marker group. -/
def psdEx : RawPsd :=
  { width := some 800, height := some 400, children := some [tmplGroupEx] }


/-- A concrete raw leaf layer named `L1`. -/
def leafEx : RawLayer :=
  RawLayer.mk (some "L1") (some 10) (some 20) (some 30) (some 40) none none none

/-- A concrete raw design group named `HERO` holding `leafEx`. -/
def designEx : RawLayer :=
  RawLayer.mk (some "HERO") (some 0) (some 0) (some 100) (some 200) none none
    (some [leafEx])

/-- A document whose children are the marker group and a design group. -/
def psdEx2 : RawPsd :=
  { width := some 800, height := some 400,
    children := some [tmplGroupEx, designEx] }

/-! ## Theorems -/

/-- C1 (amended): when the candidate is not blocked by the generation gate
(`generationAllowed` is not explicitly `false`) and both the stored payload
and the candidate carry nonzero `generationId`s with the candidate's
strictly smaller, the reconciliation merge returns the stored payload
unchanged and the candidate is discarded. -/
theorem c1_staleness_rejection (inc cur : TransformedPayload) (a b : ℚ)
    (hGate : inc.generationAllowed ≠ some false)
    (hca : cur.generationId = some a) (hib : inc.generationId = some b)
    (ha : a ≠ 0) (hb : b ≠ 0) (hlt : b < a) :
    reconcileTerminalState inc (some cur) = cur := by
  unfold reconcileTerminalState
  rw [if_neg hGate]
  have hstale : staleIncoming inc (some cur) = true := by
    simp [staleIncoming, hca, hib, ha, hb, hlt]
  rw [if_pos hstale]
  rfl

/-- C1 witness: submitting payload A with `generationId = 100` and then a
(non-gate-blocked) payload B with `generationId = 50` to the same slot
leaves the store holding the settled form of A unchanged. -/
theorem c1_staleness_rejection_witness :
    reconcileTerminalState { basePayload with generationId := some 50 }
        (some (reconcileTerminalState { basePayload with generationId := some 100 } none))
      = reconcileTerminalState { basePayload with generationId := some 100 } none :=
  c1_staleness_rejection _ _ 100 50 (by decide) (by decide) (by decide)
    (by decide) (by decide) (by norm_num)

/-- C1 counterexample: the claim as stated is false — a payload B with
`generationId = 50` but `generationAllowed = false` is *not* discarded
against a stored payload with `generationId = 100`: the gate rule runs
first and replaces the stored payload. -/
theorem c1_staleness_rejection_counterexample :
    reconcileTerminalState
        { basePayload with generationId := some 50, generationAllowed := some false }
        (some (reconcileTerminalState { basePayload with generationId := some 100 } none))
      ≠ reconcileTerminalState { basePayload with generationId := some 100 } none := by
  intro h
  have hh := congrArg TransformedPayload.generationAllowed h
  exact absurd hh (by decide)

/-- C2 (amended): a candidate with `generationAllowed = false` is stored with
all *top-level* generative layers stripped and preview/confirmation state
cleared while geometry and metrics are kept, this gate rule overriding every
other merge rule; and every merge preserves the invariant that a stored
payload with `generationAllowed = false` has no top-level generative layers
and no `previewUrl` (generative layers nested inside groups are not
stripped). -/
theorem c2_generation_gate :
    (∀ (inc : TransformedPayload) (cur : Option TransformedPayload),
      inc.generationAllowed = some false →
        (reconcileTerminalState inc cur).previewUrl = none
        ∧ (reconcileTerminalState inc cur).isConfirmed = some false
        ∧ (reconcileTerminalState inc cur).isTransient = some false
        ∧ (reconcileTerminalState inc cur).isSynthesizing = some false
        ∧ (reconcileTerminalState inc cur).requiresGeneration = some false
        ∧ (reconcileTerminalState inc cur).metrics = inc.metrics
        ∧ (reconcileTerminalState inc cur).scaleFactor = inc.scaleFactor
        ∧ (reconcileTerminalState inc cur).layers
            = inc.layers.filter (fun l => l.type ≠ LKind.generative)
        ∧ ∀ l ∈ (reconcileTerminalState inc cur).layers, l.type ≠ LKind.generative)
    ∧ (∀ (inc : TransformedPayload) (cur : Option TransformedPayload),
        (∀ c, cur = some c → storedGateInv c) →
        storedGateInv (reconcileTerminalState inc cur)) := by
  constructor
  · intro inc cur hg
    unfold reconcileTerminalState
    rw [if_pos hg]
    refine ⟨rfl, rfl, rfl, rfl, rfl, rfl, rfl, rfl, ?_⟩
    intro l hl
    have := List.of_mem_filter hl
    simpa using this
  · intro inc cur hcur
    unfold reconcileTerminalState
    by_cases h0 : inc.generationAllowed = some false
    · rw [if_pos h0]
      intro _
      refine ⟨?_, rfl⟩
      intro l hl
      have := List.of_mem_filter hl
      simpa using this
    · rw [if_neg h0]
      by_cases h1 : staleIncoming inc cur = true
      · rw [if_pos h1]
        cases cur with
        | none => simp [staleIncoming] at h1
        | some c => exact hcur c rfl
      · rw [if_neg h1]
        by_cases h2 : inc.status = PStatus.idle
        · rw [if_pos h2]
          intro hgen
          exact absurd hgen h0
        · rw [if_neg h2]
          by_cases h3 : truthyOB inc.isSynthesizing = true
          · rw [if_pos h3]
            intro hgen
            simp at hgen
          · rw [if_neg h3]
            cases cur with
            | none =>
              intro hgen
              simp [reconcileFinal] at hgen
            | some c =>
              dsimp only
              split_ifs with h4 h5
              all_goals intro hgen
              all_goals simp [reconcileFinal] at hgen

/-- C2 witness: the gate consequences and the stored invariant at a concrete
gate-blocked payload holding one top-level generative layer. -/
theorem c2_generation_gate_witness :
    (reconcileTerminalState
        { basePayload with generationAllowed := some false, layers := [genLayerEx] }
        none).previewUrl = none
    ∧ storedGateInv (reconcileTerminalState
        { basePayload with generationAllowed := some false, layers := [genLayerEx] }
        none) :=
  ⟨(c2_generation_gate.1 _ none rfl).1,
   c2_generation_gate.2 _ none (fun c h => by cases h)⟩

/-- C2 counterexample: the claim as stated is false — the gate's filter is
top-level only, so a generative layer nested inside a group survives a
`generationAllowed = false` merge and the stored payload still contains a
generative-kind layer. -/
theorem c2_generation_gate_counterexample :
    (reconcileTerminalState
        { basePayload with generationAllowed := some false, layers := [grpWithGenEx] }
        none).generationAllowed = some false
    ∧ containsGenerativeTL
        (reconcileTerminalState
          { basePayload with generationAllowed := some false, layers := [grpWithGenEx] }
          none).layers = true := by
  constructor
  · rfl
  · simp [reconcileTerminalState, basePayload, grpWithGenEx, genLayerEx,
      containsGenerativeTL, TLayer.type, List.filter]

/-- C3 (amended): a candidate marked `isTransient = true` that is not in the
synthesis-flush state, merged against a store that does not already hold the
transient-and-confirmed combination, never produces a stored payload with
`isTransient = true` and `isConfirmed = true` simultaneously (the staleness
and preservation branches may keep the stored confirmation, but then they
keep the stored transience as well). -/
theorem c3_transient_never_confirmed (inc : TransformedPayload)
    (cur : Option TransformedPayload)
    (ht : truthyOB inc.isTransient = true)
    (hs : truthyOB inc.isSynthesizing = false)
    (hcur : ∀ c, cur = some c → transientConfirmedFree c) :
    transientConfirmedFree (reconcileTerminalState inc cur) := by
  unfold reconcileTerminalState
  by_cases h0 : inc.generationAllowed = some false
  · rw [if_pos h0]
    intro ⟨hT, _⟩
    simp [truthyOB] at hT
  · rw [if_neg h0]
    by_cases h1 : staleIncoming inc cur = true
    · rw [if_pos h1]
      cases cur with
      | none => simp [staleIncoming] at h1
      | some c => exact hcur c rfl
    · rw [if_neg h1]
      by_cases h2 : inc.status = PStatus.idle
      · rw [if_pos h2]
        intro ⟨_, hC⟩
        simp [truthyOB] at hC
      · rw [if_neg h2]
        by_cases h3 : truthyOB inc.isSynthesizing = true
        · exact absurd h3 (by simp [hs])
        · rw [if_neg h3]
          cases cur with
          | none =>
            dsimp only
            rw [if_pos ht]
            intro ⟨_, hC⟩
            simp [reconcileFinal, truthyOB] at hC
          | some c =>
            dsimp only
            rw [if_pos ht]
            split_ifs with h4
            · intro ⟨hT, hC⟩
              exact hcur c rfl ⟨hT, hC⟩
            · intro ⟨_, hC⟩
              simp [reconcileFinal, truthyOB] at hC

/-- C3 witness: the guard at a concrete transient, non-synthesizing candidate
merged into an empty slot. -/
theorem c3_transient_never_confirmed_witness :
    transientConfirmedFree
      (reconcileTerminalState
        { basePayload with isTransient := some true, isConfirmed := some true }
        none) :=
  c3_transient_never_confirmed _ none (by decide) (by decide)
    (fun c h => by cases h)

/-- C3 counterexample: the claim as stated is false — a candidate marked
`isTransient = true`, `isConfirmed = true` and `isSynthesizing = true`
merged into an empty slot is stored still transient *and* confirmed: the
synthesis-flush branch runs before the confirmation-state guard. -/
theorem c3_transient_never_confirmed_counterexample :
    (reconcileTerminalState
        { basePayload with
            isTransient := some true
            isConfirmed := some true
            isSynthesizing := some true } none).isTransient = some true
    ∧ (reconcileTerminalState
        { basePayload with
            isTransient := some true
            isConfirmed := some true
            isSynthesizing := some true } none).isConfirmed = some true := by
  exact ⟨rfl, rfl⟩


/-- C4 (amended): a matching per-layer override replaces (does not add to)
the geometric projection — `finalX = targetX + xOffset` exactly, while
`finalY = targetY + yOffset` is then clamped by the vertical boundary rule —
and the layer's effective scale is the global scale multiplied by
`individualScale` in both X and Y. -/
theorem c4_override_replacement (src tgt : Rect) (st : LayoutStrategy)
    (o : LayerOverride) (lid nm : String) (ty : LKind) (vis : Bool) (op : ℚ)
    (co : Rect) (ch : Option (List SLayer)) (rest : List SLayer)
    (ho : overrideFor (some st) lid = some o) :
    ∃ chOut tl,
      transformLayers src tgt (some st) (SLayer.mk lid nm ty vis op co ch :: rest) 0 0
        = TLayer.mk lid nm ty vis op
            ⟨tgt.x + o.xOffset, clampY tgt (tgt.y + o.yOffset),
             co.w * (st.suggestedScale * o.individualScale),
             co.h * (st.suggestedScale * o.individualScale)⟩
            ⟨st.suggestedScale * o.individualScale,
             st.suggestedScale * o.individualScale,
             tgt.x + o.xOffset, clampY tgt (tgt.y + o.yOffset)⟩
            chOut none :: tl := by
  refine ⟨(match ch with
           | some kids => some (transformLayers src tgt (some st) kids 0 0)
           | none => none),
          transformLayers src tgt (some st) rest 0 0, ?_⟩
  rw [transformLayers.eq_def]
  dsimp only
  rw [ho]
  dsimp only [computeScaleAnchor]

/-- C4 witness: the spec's example — a layer geometrically projected to
`(10, 10)` with override `{xOffset: 5, yOffset: 5}` on a target at
`(0, 0, 100, 100)` lands at exactly `(5, 5)`. -/
theorem c4_override_replacement_witness :
    (∃ chOut tl,
      transformLayers src100 tgt100 (some (stratWith ovA))
          (SLayer.mk "a" "A" LKind.layer true 1 ⟨10, 10, 10, 10⟩ none :: []) 0 0
        = TLayer.mk "a" "A" LKind.layer true 1
            ⟨tgt100.x + ovA.xOffset, clampY tgt100 (tgt100.y + ovA.yOffset),
             10 * ((stratWith ovA).suggestedScale * ovA.individualScale),
             10 * ((stratWith ovA).suggestedScale * ovA.individualScale)⟩
            ⟨(stratWith ovA).suggestedScale * ovA.individualScale,
             (stratWith ovA).suggestedScale * ovA.individualScale,
             tgt100.x + ovA.xOffset, clampY tgt100 (tgt100.y + ovA.yOffset)⟩
            chOut none :: tl)
    ∧ tgt100.x + ovA.xOffset = 5
    ∧ clampY tgt100 (tgt100.y + ovA.yOffset) = 5 :=
  ⟨c4_override_replacement src100 tgt100 (stratWith ovA) ovA "a" "A"
      LKind.layer true 1 ⟨10, 10, 10, 10⟩ none [] (by rfl),
   by norm_num [tgt100, ovA],
   by norm_num [clampY, tgt100, ovA, MAX_BOUNDARY_VIOLATION_PERCENT]⟩

/-- C4 counterexample: the claim as stated is false — with override
`{xOffset: 0, yOffset: 200}` on a target at `(0, 0, 100, 100)` the final
vertical position is the clamped `103`, not `targetY + yOffset = 200`. -/
theorem c4_override_replacement_counterexample :
    (transformLayers src100 tgt100 (some (stratWith ovBigY))
        (SLayer.mk "a" "A" LKind.layer true 1 ⟨10, 10, 10, 10⟩ none :: []) 0 0).map
        (fun t => t.coords.y) = [103]
    ∧ (103 : ℚ) ≠ tgt100.y + ovBigY.yOffset := by
  constructor
  · rw [transformLayers.eq_def]
    dsimp only
    rw [show overrideFor (some (stratWith ovBigY)) "a" = some ovBigY from rfl]
    rw [transformLayers.eq_def]
    norm_num [clampY, computeScaleAnchor, tgt100, src100, ovBigY, stratWith,
      MAX_BOUNDARY_VIOLATION_PERCENT, TLayer.coords]
  · norm_num [tgt100, ovBigY]

/-- C5: the engine's scale and anchors — fit-scale `min(tw/sw, th/sh)` with
centered anchors when no strategy is attached (`100×200` onto `50×50` gives
scale `1/4`), the strategy's `suggestedScale` with centered X anchor and
TOP/BOTTOM/else-centered Y anchor when one is — and each un-overridden layer
is projected at `anchor + ((layerPos − sourcePos)/sourceDim)·(sourceDim·scale)`,
the vertical coordinate then passing through the boundary clamp. -/
theorem c5_scale_anchor_projection (src tgt : Rect) (st : LayoutStrategy) :
    (computeScaleAnchor src tgt none
      = (min (tgt.w / src.w) (tgt.h / src.h),
         tgt.x + (tgt.w - src.w * min (tgt.w / src.w) (tgt.h / src.h)) / 2,
         tgt.y + (tgt.h - src.h * min (tgt.w / src.w) (tgt.h / src.h)) / 2))
    ∧ ((computeScaleAnchor src tgt (some st)).1 = st.suggestedScale)
    ∧ ((computeScaleAnchor src tgt (some st)).2.1
        = tgt.x + (tgt.w - src.w * st.suggestedScale) / 2)
    ∧ (st.anchor = Anchor.TOP →
        (computeScaleAnchor src tgt (some st)).2.2 = tgt.y)
    ∧ (st.anchor = Anchor.BOTTOM →
        (computeScaleAnchor src tgt (some st)).2.2
          = tgt.y + (tgt.h - src.h * st.suggestedScale))
    ∧ (st.anchor ≠ Anchor.TOP → st.anchor ≠ Anchor.BOTTOM →
        (computeScaleAnchor src tgt (some st)).2.2
          = tgt.y + (tgt.h - src.h * st.suggestedScale) / 2)
    ∧ (∀ (strat : Option LayoutStrategy) (lid nm : String) (ty : LKind)
        (vis : Bool) (op : ℚ) (co : Rect) (ch : Option (List SLayer))
        (rest : List SLayer),
        overrideFor strat lid = none →
        ∃ chOut tl,
          transformLayers src tgt strat (SLayer.mk lid nm ty vis op co ch :: rest) 0 0
            = TLayer.mk lid nm ty vis op
                ⟨(computeScaleAnchor src tgt strat).2.1
                    + ((co.x - src.x) / src.w)
                      * (src.w * (computeScaleAnchor src tgt strat).1),
                 clampY tgt
                   ((computeScaleAnchor src tgt strat).2.2
                    + ((co.y - src.y) / src.h)
                      * (src.h * (computeScaleAnchor src tgt strat).1)),
                 co.w * (computeScaleAnchor src tgt strat).1,
                 co.h * (computeScaleAnchor src tgt strat).1⟩
                ⟨(computeScaleAnchor src tgt strat).1,
                 (computeScaleAnchor src tgt strat).1,
                 (computeScaleAnchor src tgt strat).2.1
                    + ((co.x - src.x) / src.w)
                      * (src.w * (computeScaleAnchor src tgt strat).1),
                 clampY tgt
                   ((computeScaleAnchor src tgt strat).2.2
                    + ((co.y - src.y) / src.h)
                      * (src.h * (computeScaleAnchor src tgt strat).1))⟩
                chOut none :: tl)
    ∧ (computeScaleAnchor ⟨0, 0, 100, 200⟩ ⟨0, 0, 50, 50⟩ none).1 = 1 / 4 := by
  refine ⟨rfl, rfl, rfl, ?_, ?_, ?_, ?_, ?_⟩
  · intro hT
    dsimp only [computeScaleAnchor]
    rw [if_pos hT]
  · intro hB
    dsimp only [computeScaleAnchor]
    rw [if_neg ?_, if_pos hB]
    simp [hB]
  · intro hT hB
    dsimp only [computeScaleAnchor]
    rw [if_neg hT, if_neg hB]
  · intro strat lid nm ty vis op co ch rest hno
    refine ⟨(match ch with
             | some kids => some (transformLayers src tgt strat kids 0 0)
             | none => none),
            transformLayers src tgt strat rest 0 0, ?_⟩
    rw [transformLayers.eq_def]
    dsimp only
    rw [hno]
    dsimp only
    norm_num
  · norm_num [computeScaleAnchor]

/-- C5 witness: the projection equation at a concrete un-overridden layer
(no strategy, source `100×200`, target `50×50`). -/
theorem c5_scale_anchor_projection_witness :
    ∃ chOut tl,
      transformLayers ⟨0, 0, 100, 200⟩ ⟨0, 0, 50, 50⟩ none
          (SLayer.mk "a" "A" LKind.layer true 1 ⟨0, 0, 100, 200⟩ none :: []) 0 0
        = TLayer.mk "a" "A" LKind.layer true 1
            ⟨(computeScaleAnchor ⟨0, 0, 100, 200⟩ ⟨0, 0, 50, 50⟩ none).2.1
                + ((0 - (0:ℚ)) / 100)
                  * (100 * (computeScaleAnchor ⟨0, 0, 100, 200⟩ ⟨0, 0, 50, 50⟩ none).1),
             clampY ⟨0, 0, 50, 50⟩
               ((computeScaleAnchor ⟨0, 0, 100, 200⟩ ⟨0, 0, 50, 50⟩ none).2.2
                + ((0 - (0:ℚ)) / 200)
                  * (200 * (computeScaleAnchor ⟨0, 0, 100, 200⟩ ⟨0, 0, 50, 50⟩ none).1)),
             100 * (computeScaleAnchor ⟨0, 0, 100, 200⟩ ⟨0, 0, 50, 50⟩ none).1,
             200 * (computeScaleAnchor ⟨0, 0, 100, 200⟩ ⟨0, 0, 50, 50⟩ none).1⟩
            ⟨(computeScaleAnchor ⟨0, 0, 100, 200⟩ ⟨0, 0, 50, 50⟩ none).1,
             (computeScaleAnchor ⟨0, 0, 100, 200⟩ ⟨0, 0, 50, 50⟩ none).1,
             (computeScaleAnchor ⟨0, 0, 100, 200⟩ ⟨0, 0, 50, 50⟩ none).2.1
                + ((0 - (0:ℚ)) / 100)
                  * (100 * (computeScaleAnchor ⟨0, 0, 100, 200⟩ ⟨0, 0, 50, 50⟩ none).1),
             clampY ⟨0, 0, 50, 50⟩
               ((computeScaleAnchor ⟨0, 0, 100, 200⟩ ⟨0, 0, 50, 50⟩ none).2.2
                + ((0 - (0:ℚ)) / 200)
                  * (200 * (computeScaleAnchor ⟨0, 0, 100, 200⟩ ⟨0, 0, 50, 50⟩ none).1))⟩
            chOut none :: tl :=
  (c5_scale_anchor_projection ⟨0, 0, 100, 200⟩ ⟨0, 0, 50, 50⟩
      (stratWith ovA)).2.2.2.2.2.2.1 none "a" "A" LKind.layer true 1
    ⟨0, 0, 100, 200⟩ none [] (by rfl)

/-- C6: every layer of the engine's output — at any depth, overridden or
not — has its vertical position clamped into
`[targetY − 0.03·targetH, targetY + 1.03·targetH]`, while the horizontal
position is not clamped: a concrete override displaces a layer's output x
beyond the analogous horizontal interval. -/
theorem c6_vertical_clamp_only :
    (∀ (src tgt : Rect) (strat : Option LayoutStrategy) (ls : List SLayer)
       (pdx pdy : ℚ), 0 ≤ tgt.h →
       ∀ t ∈ allTL (transformLayers src tgt strat ls pdx pdy),
         tgt.y - tgt.h * MAX_BOUNDARY_VIOLATION_PERCENT ≤ t.coords.y
         ∧ t.coords.y ≤ tgt.y + tgt.h + tgt.h * MAX_BOUNDARY_VIOLATION_PERCENT)
    ∧ ((transformLayers src100 tgt100 (some (stratWith ovHugeX))
          (SLayer.mk "a" "A" LKind.layer true 1 ⟨10, 10, 10, 10⟩ none :: []) 0 0).map
            (fun t => t.coords.x) = [1000]
        ∧ tgt100.x + tgt100.w + tgt100.w * MAX_BOUNDARY_VIOLATION_PERCENT < 1000) := by
  constructor
  · intro src tgt strat ls pdx pdy hh
    have hclamp : ∀ y : ℚ,
        tgt.y - tgt.h * MAX_BOUNDARY_VIOLATION_PERCENT ≤ clampY tgt y
        ∧ clampY tgt y ≤ tgt.y + tgt.h + tgt.h * MAX_BOUNDARY_VIOLATION_PERCENT := by
      intro y
      unfold clampY MAX_BOUNDARY_VIOLATION_PERCENT
      constructor
      · exact le_max_left _ _
      · apply max_le
        · nlinarith
        · exact le_trans (min_le_right _ _) (by norm_num)
    induction ls, pdx, pdy using transformLayers.induct src tgt strat with
    | case1 pdx pdy =>
      intro t ht
      rw [transformLayers.eq_def] at ht
      simp [allTL] at ht
    | case2 lid nm ty vis op co ch rest pdx pdy ih1 ih2 =>
      intro t ht
      rw [transformLayers.eq_def] at ht
      dsimp only at ht
      rw [allTL.eq_def] at ht
      dsimp only at ht
      rcases List.mem_cons.mp ht with h | h
      · subst h
        exact hclamp _
      · rcases List.mem_append.mp h with h | h
        · cases ch with
          | none => simp at h
          | some kids => exact ih1 t h
        · exact ih2 t h
  · constructor
    · rw [transformLayers.eq_def]
      dsimp only
      rw [show overrideFor (some (stratWith ovHugeX)) "a" = some ovHugeX from rfl]
      rw [transformLayers.eq_def]
      norm_num [tgt100, src100, ovHugeX, TLayer.coords]
    · norm_num [tgt100, MAX_BOUNDARY_VIOLATION_PERCENT]

/-- C6 witness: the clamp bounds at the concrete clamped output of the C4
counterexample input (target height `100 ≥ 0`). -/
theorem c6_vertical_clamp_only_witness :
    ∀ t ∈ allTL (transformLayers src100 tgt100 (some (stratWith ovBigY))
        (SLayer.mk "a" "A" LKind.layer true 1 ⟨10, 10, 10, 10⟩ none :: []) 0 0),
      tgt100.y - tgt100.h * MAX_BOUNDARY_VIOLATION_PERCENT ≤ t.coords.y
      ∧ t.coords.y ≤ tgt100.y + tgt100.h + tgt100.h * MAX_BOUNDARY_VIOLATION_PERCENT :=
  c6_vertical_clamp_only.1 src100 tgt100 (some (stratWith ovBigY))
    (SLayer.mk "a" "A" LKind.layer true 1 ⟨10, 10, 10, 10⟩ none :: []) 0 0
    (by norm_num [tgt100])



/-- Helper: `findLayerDeep` computes the spec's pre-order first match for
the predicate selected by its `caseSensitive` flag. -/
theorem findLayerDeep_spec (target : String) (cs : Bool) :
    ∀ tree, findLayerDeep tree target cs
      = specFirstMatch (matchPred cs target) tree := by
  intro tree
  induction tree, target, cs using findLayerDeep.induct with
  | case1 t c => simp [findLayerDeep, specFirstMatch]
  | case2 t c i nm ty vis op co ch rest lnm ism h =>
    rw [findLayerDeep.eq_def, specFirstMatch.eq_def]
    dsimp only
    simp only [matchPred, SLayer.name]
    by_cases hcond : (if c = true then decide (nm = t)
        else decide (lowerStr nm = lowerStr t)) = true
    · rw [if_pos hcond, if_pos hcond]
    · exact absurd h hcond
  | case3 t c i nm ty vis op co rest lnm ism h kids hlen found hfound ih =>
    rw [findLayerDeep.eq_def, specFirstMatch.eq_def]
    dsimp only
    simp only [matchPred, SLayer.name]
    by_cases hcond : (if c = true then decide (nm = t)
        else decide (lowerStr nm = lowerStr t)) = true
    · exact absurd hcond h
    · rw [if_neg hcond, if_neg hcond]
      rw [← ih, hfound]
      simp [hlen]
  | case4 t c i nm ty vis op co rest lnm ism h kids hlen hnone ih1 ih2 =>
    rw [findLayerDeep.eq_def, specFirstMatch.eq_def]
    dsimp only
    simp only [matchPred, SLayer.name]
    by_cases hcond : (if c = true then decide (nm = t)
        else decide (lowerStr nm = lowerStr t)) = true
    · exact absurd hcond h
    · rw [if_neg hcond, if_neg hcond]
      rw [← ih1, hnone, ← ih2]
      simp [hlen]
  | case5 t c i nm ty vis op co rest lnm ism h kids hlen ih =>
    rw [findLayerDeep.eq_def, specFirstMatch.eq_def]
    dsimp only
    simp only [matchPred, SLayer.name]
    by_cases hcond : (if c = true then decide (nm = t)
        else decide (lowerStr nm = lowerStr t)) = true
    · exact absurd hcond h
    · rw [if_neg hcond, if_neg hcond]
      have hk : kids = [] := List.length_eq_zero.mp (by omega)
      subst hk
      rw [← ih]
      simp [findLayerDeep, specFirstMatch]
  | case6 t c i nm ty vis op co rest lnm ism h ih =>
    rw [findLayerDeep.eq_def, specFirstMatch.eq_def]
    dsimp only
    simp only [matchPred, SLayer.name]
    by_cases hcond : (if c = true then decide (nm = t)
        else decide (lowerStr nm = lowerStr t)) = true
    · exact absurd hcond h
    · rw [if_neg hcond, if_neg hcond]
      exact ih

theorem findLayerDeep_strict (target : String) (tree : List SLayer) :
    findLayerDeep tree target true = specFirstMatch (strictPred target) tree := by
  rw [findLayerDeep_spec]
  rfl

theorem findLayerDeep_loose (target : String) (tree : List SLayer) :
    findLayerDeep tree target false = specFirstMatch (loosePred target) tree := by
  rw [findLayerDeep_spec]
  rfl

theorem leafCount_eq (l : SLayer) :
    getRecursiveLeafCount l = specLeafCount l := by
  refine getRecursiveLeafCount.induct
    (fun ls => getRecursiveLeafCount.leafCountSum ls
      = specLeafCount.specLeafCountSum ls)
    (fun x => getRecursiveLeafCount x = specLeafCount x)
    ?_ ?_ ?_ ?_ ?_ ?_ l
  · intro v name ty vis op co ch hty
    rw [getRecursiveLeafCount.eq_def, specLeafCount.eq_def]
    dsimp only
    rw [if_pos hty, if_neg (by exact fun hh => hty (by simp [hh]))]
  · intro v name ty vis op co hty
    rw [getRecursiveLeafCount.eq_def, specLeafCount.eq_def]
    dsimp only
    rw [if_neg hty, if_pos (not_not.mp hty)]
  · intro v name ty vis op co hty kids hlen
    rw [getRecursiveLeafCount.eq_def, specLeafCount.eq_def]
    dsimp only
    rw [if_neg hty, if_pos (not_not.mp hty)]
    have hk : kids = [] := List.length_eq_zero.mp hlen
    subst hk
    rw [specLeafCount.specLeafCountSum.eq_def]
    simp
  · intro v name ty vis op co hty kids hlen ih
    rw [getRecursiveLeafCount.eq_def, specLeafCount.eq_def]
    dsimp only
    rw [if_neg hty, if_pos (not_not.mp hty)]
    rw [if_neg hlen]
    exact ih
  · show getRecursiveLeafCount.leafCountSum [] = specLeafCount.specLeafCountSum []
    rw [getRecursiveLeafCount.leafCountSum.eq_def,
      specLeafCount.specLeafCountSum.eq_def]
  · intro l rest h1 h2
    show getRecursiveLeafCount.leafCountSum (l :: rest)
      = specLeafCount.specLeafCountSum (l :: rest)
    rw [getRecursiveLeafCount.leafCountSum.eq_def,
      specLeafCount.specLeafCountSum.eq_def]
    dsimp only
    rw [h1, h2]

/-- C7 (amended): `resolveLayer` equals the spec's six-status reference
algorithm, provided the name normalization is read as stripping the leading
`'!'` markers *and trimming surrounding whitespace* (a name that is
whitespace-only after stripping yields `NO_NAME`, and the search uses the
trimmed name): status, attached layer, and count coincide on all inputs. -/
theorem c7_resolver_matches_spec (templateName : String)
    (designTree : Option (List SLayer)) :
    (resolveLayer templateName designTree).status
        = (specResolve stripBangTrim templateName designTree).status
    ∧ (resolveLayer templateName designTree).layer
        = (specResolve stripBangTrim templateName designTree).layer
    ∧ (resolveLayer templateName designTree).totalCount
        = (specResolve stripBangTrim templateName designTree).count := by
  cases designTree with
  | none => exact ⟨rfl, rfl, rfl⟩
  | some tree =>
    unfold resolveLayer specResolve
    dsimp only
    by_cases hn : templateName = ""
    · rw [if_pos hn]
      subst hn
      rw [if_pos (show stripBangTrim "" = "" from rfl)]
      exact ⟨rfl, rfl, rfl⟩
    · rw [if_neg hn]
      by_cases hc : stripBangTrim templateName = ""
      · rw [if_pos hc, if_pos hc]
        exact ⟨rfl, rfl, rfl⟩
      · rw [if_neg hc, if_neg hc]
        rw [findLayerDeep_strict, findLayerDeep_loose]
        cases hstrict : specFirstMatch (strictPred (stripBangTrim templateName)) tree with
        | some strictMatch =>
          dsimp only
          rw [leafCount_eq]
          by_cases h0 : specLeafCount strictMatch = 0
          · rw [if_pos h0, if_pos h0]
            exact ⟨rfl, rfl, rfl⟩
          · rw [if_neg h0, if_neg h0]
            exact ⟨rfl, rfl, rfl⟩
        | none =>
          dsimp only
          cases hloose : specFirstMatch (loosePred (stripBangTrim templateName)) tree with
          | some looseMatch =>
            dsimp only
            rw [leafCount_eq]
            by_cases h0 : specLeafCount looseMatch = 0
            · rw [if_pos h0, if_pos h0]
              exact ⟨rfl, rfl, rfl⟩
            · rw [if_neg h0, if_neg h0]
              exact ⟨rfl, rfl, rfl⟩
          | none =>
            exact ⟨rfl, rfl, rfl⟩


/-- C7 counterexample: the claim as stated is false — the code trims the
stripped name (`"A "` resolves the layer named `"A"` with status
`RESOLVED`), while the claim's literal algorithm searches for `"A "`
untrimmed and reports `MISSING_DESIGN_GROUP`. -/
theorem c7_resolver_matches_spec_counterexample :
    (resolveLayer "A " (some [layerA])).status = RStatus.RESOLVED
    ∧ (specResolve stripBangsOnly "A " (some [layerA])).status
        = RStatus.MISSING_DESIGN_GROUP := by
  constructor
  · simp [resolveLayer, stripBangTrim, findLayerDeep, layerA,
      getRecursiveLeafCount]
  · simp [specResolve, stripBangsOnly, specFirstMatch, strictPred, loosePred,
      layerA, SLayer.name, lowerStr]



/-- Helper: the container id template is injective in the index. -/
theorem containerId_inj (i j : Nat) (s t : String)
    (h : "container-" ++ natToString i ++ "-" ++ s
       = "container-" ++ natToString j ++ "-" ++ t) : i = j := by
  have hd := congrArg String.data h
  simp only [String.data_append, List.append_assoc] at hd
  have hd10 := congrArg (List.drop 10) hd
  rw [show (10:Nat) = ("container-".data).length from rfl] at hd10
  rw [List.drop_left, List.drop_left] at hd10
  have htk := congrArg (List.takeWhile Char.isDigit) hd10
  rw [show ∀ n, (natToString n).data = natToChars n from fun n => rfl,
      show ∀ n, (natToString n).data = natToChars n from fun n => rfl] at htk
  rw [List.takeWhile_append_of_pos (natToChars_all_digits i),
      List.takeWhile_append_of_pos (natToChars_all_digits j)] at htk
  have hone : ∀ (u : List Char), List.takeWhile Char.isDigit (['-'] ++ u)
      = [] := by
    intro u
    show List.takeWhile Char.isDigit ('-' :: u) = []
    rw [List.takeWhile_cons, if_neg (by decide)]
  rw [hone, hone] at htk
  simp only [List.append_nil] at htk
  exact natToChars_injective htk


/-- C8: containers are emitted in the marker group's child order with ids
`container-<index>-<cleaned name, whitespace runs replaced by underscores>`
(pairwise distinct), normalized bounds equal to the absolute bounds divided
by the canvas dimensions, and canvas dimensions defaulting to 1 when the
source document reports 0 (or none). -/
theorem c8_extractor (psd : RawPsd) (cs : List RawLayer) (g : RawLayer)
    (kids : List RawLayer)
    (hch : psd.children = some cs)
    (hg : cs.find? (fun c : RawLayer => c.name = some "!!TEMPLATE") = some g)
    (hkids : g.children = some kids) :
    (extractTemplateMetadata psd).containers.length = kids.length
    ∧ (∀ i (hi : i < kids.length)
         (hi2 : i < (extractTemplateMetadata psd).containers.length),
        ((extractTemplateMetadata psd).containers.get ⟨i, hi2⟩).id
            = "container-" ++ natToString i ++ "-"
              ++ String.mk (collapseWs
                  (stripBangBang (rawNameOr (kids.get ⟨i, hi⟩).name "Untitled")).data)
        ∧ ((extractTemplateMetadata psd).containers.get ⟨i, hi2⟩).normalized.x
            = ((extractTemplateMetadata psd).containers.get ⟨i, hi2⟩).bounds.x
              / (extractTemplateMetadata psd).canvas.width
        ∧ ((extractTemplateMetadata psd).containers.get ⟨i, hi2⟩).normalized.y
            = ((extractTemplateMetadata psd).containers.get ⟨i, hi2⟩).bounds.y
              / (extractTemplateMetadata psd).canvas.height
        ∧ ((extractTemplateMetadata psd).containers.get ⟨i, hi2⟩).normalized.w
            = ((extractTemplateMetadata psd).containers.get ⟨i, hi2⟩).bounds.w
              / (extractTemplateMetadata psd).canvas.width
        ∧ ((extractTemplateMetadata psd).containers.get ⟨i, hi2⟩).normalized.h
            = ((extractTemplateMetadata psd).containers.get ⟨i, hi2⟩).bounds.h
              / (extractTemplateMetadata psd).canvas.height
        ∧ ((extractTemplateMetadata psd).containers.get ⟨i, hi2⟩).bounds
            = rectOfRaw (kids.get ⟨i, hi⟩)
        ∧ ((extractTemplateMetadata psd).containers.get ⟨i, hi2⟩).originalName
            = rawNameOr (kids.get ⟨i, hi⟩).name "Untitled")
    ∧ ((psd.width = some 0 ∨ psd.width = none)
        → (extractTemplateMetadata psd).canvas.width = 1)
    ∧ ((psd.height = some 0 ∨ psd.height = none)
        → (extractTemplateMetadata psd).canvas.height = 1)
    ∧ ((extractTemplateMetadata psd).containers.map ContainerDefinition.id).Nodup := by
  have hcont : (extractTemplateMetadata psd).containers
      = kids.mapIdx (fun i c =>
          mkContainer (extractTemplateMetadata psd).canvas.width
            (extractTemplateMetadata psd).canvas.height i c) := by
    simp only [extractTemplateMetadata, hch, hg, hkids]
  refine ⟨?_, ?_, ?_, ?_, ?_⟩
  · rw [hcont]
    simp
  · intro i hi hi2
    have hget : (extractTemplateMetadata psd).containers.get ⟨i, hi2⟩
        = mkContainer (extractTemplateMetadata psd).canvas.width
            (extractTemplateMetadata psd).canvas.height i (kids.get ⟨i, hi⟩) := by
      simp only [List.get_eq_getElem, hcont, List.getElem_mapIdx]
    rw [hget]
    exact ⟨rfl, rfl, rfl, rfl, rfl, rfl, rfl⟩
  · intro hw
    simp only [extractTemplateMetadata]
    rcases hw with hw | hw <;> simp [hw]
  · intro hw
    simp only [extractTemplateMetadata]
    rcases hw with hw | hw <;> simp [hw]
  · rw [hcont]
    rw [List.nodup_iff_injective_get]
    intro a b hab
    rcases a with ⟨i, hi⟩
    rcases b with ⟨j, hj⟩
    simp only [List.length_map] at hi hj
    rw [List.get_eq_getElem, List.get_eq_getElem, List.getElem_map,
      List.getElem_map] at hab
    have hil : i < kids.length := by
      simpa using hi
    have hjl : j < kids.length := by
      simpa using hj
    simp only [Fin.getElem_fin, List.getElem_mapIdx, mkContainer] at hab
    have : i = j := containerId_inj i j _ _ hab
    exact Fin.ext this


/-- C8 witness: the extractor facts at the concrete example document (one
`!!HERO` container on an 800×400 canvas). -/
theorem c8_extractor_witness :
    (extractTemplateMetadata psdEx).containers.length = 1
    ∧ ((extractTemplateMetadata psdEx).containers.map ContainerDefinition.id).Nodup := by
  have h := c8_extractor psdEx [tmplGroupEx] tmplGroupEx [heroEx] rfl (by rfl) rfl
  exact ⟨h.1, h.2.2.2.2⟩



/-- Helper: two strings with equal character data are equal. -/
theorem string_ext (a b : String) (h : a.data = b.data) : a = b := by
  cases a
  cases b
  exact congrArg String.mk h

theorem splitDot_no_dot (cs : List Char) (h : ∀ c ∈ cs, c ≠ '.') :
    splitDot cs = [cs] := by
  induction cs with
  | nil => rw [splitDot.eq_def]
  | cons c rest ih =>
    rw [splitDot.eq_def]
    dsimp only
    rw [if_neg (h c (by simp))]
    rw [ih (fun x hx => h x (by simp [hx]))]

theorem splitDot_head_group (g : List Char) (hg : ∀ c ∈ g, c ≠ '.') (t : List Char) :
    splitDot (g ++ '.' :: t) = g :: splitDot t := by
  induction g with
  | nil =>
    rw [splitDot.eq_def]
    simp
  | cons c g' ih =>
    rw [List.cons_append, splitDot.eq_def]
    dsimp only
    rw [if_neg (hg c (by simp))]
    rw [ih (fun x hx => hg x (by simp [hx]))]

theorem joinDots_snoc (xs : List (List Char)) (hx : xs ≠ []) (y : List Char) :
    joinDots (xs ++ [y]) = joinDots xs ++ '.' :: y := by
  induction xs with
  | nil => exact absurd rfl hx
  | cons x xs' ih =>
    cases xs' with
    | nil => rw [joinDots.eq_def]; rfl
    | cons x2 xs2 =>
      rw [show (x :: x2 :: xs2) ++ [y] = x :: x2 :: (xs2 ++ [y]) from rfl]
      rw [joinDots.eq_def]
      dsimp only
      rw [show x2 :: (xs2 ++ [y]) = (x2 :: xs2) ++ [y] from rfl]
      rw [ih (by simp)]
      conv_rhs => rw [joinDots.eq_def]
      dsimp only
      simp

theorem natToChars_ne_dot (i : Nat) : ∀ c ∈ natToChars i, c ≠ '.' := by
  intro c hc
  have := natToChars_all_digits i c hc
  intro hcc
  subst hcc
  simp at this

theorem pathStr_nil : pathStr [] = "" := rfl

theorem pathStr_singleton (i : Nat) : pathStr [i] = natToString i := rfl

theorem pathStr_ne_empty (pref : List Nat) (h : pref ≠ []) : pathStr pref ≠ "" := by
  intro hh
  cases pref with
  | nil => exact h rfl
  | cons x xs =>
    have hd : joinDots (natToChars x :: List.map natToChars xs) = [] :=
      congrArg String.data hh
    cases xs with
    | nil =>
      simp [joinDots] at hd
      exact natToChars_ne_nil x hd
    | cons y ys =>
      simp [joinDots] at hd

theorem pathStr_snoc (pref : List Nat) (h : pref ≠ []) (i : Nat) :
    pathStr (pref ++ [i]) = pathStr pref ++ "." ++ natToString i := by
  apply string_ext
  simp only [pathStr, String.data_append, List.map_append, List.map_cons,
    List.map_nil]
  rw [joinDots_snoc _ (by simpa using h)]
  simp [natToString]

theorem splitDot_pathStr (ids : List Nat) (h : ids ≠ []) :
    splitDot (pathStr ids).data = ids.map natToChars := by
  induction ids with
  | nil => exact absurd rfl h
  | cons i rest ih =>
    cases rest with
    | nil =>
      rw [pathStr_singleton]
      rw [show (natToString i).data = natToChars i from rfl]
      rw [splitDot_no_dot _ (natToChars_ne_dot i)]
      rfl
    | cons j rest2 =>
      have hps : pathStr (i :: j :: rest2)
          = natToString i ++ "." ++ pathStr (j :: rest2) := by
        apply string_ext
        simp only [pathStr, String.data_append, List.map_cons]
        rw [joinDots.eq_def]
        dsimp only
        simp [natToString]
      rw [hps]
      rw [show (natToString i ++ "." ++ pathStr (j :: rest2)).data
          = natToChars i ++ '.' :: (pathStr (j :: rest2)).data from by
        simp [natToString]]
      rw [splitDot_head_group _ (natToChars_ne_dot i)]
      rw [ih (by simp)]
      rfl

theorem jsNumberNat_natToChars (i : Nat) :
    jsNumberNat (natToChars i) = some i := by
  rw [jsNumberNat]
  rw [if_pos (List.all_eq_true.mpr (fun c hc => natToChars_all_digits i c hc))]
  rw [parseDigits_natToChars]

theorem walkPath_somes_snoc (q : List Nat) (j : Nat) :
    ∀ (cur : Option (List RawLayer)) (tgt : Option RawLayer),
    walkPath cur ((q ++ [j]).map some) tgt
      = (match descend cur q with
         | some ls => ls[j]?
         | none => none) := by
  induction q with
  | nil =>
    intro cur tgt
    rw [descend.eq_def]
    simp only [List.nil_append, List.map_cons, List.map_nil]
    rw [walkPath.eq_def]
    dsimp only
    cases cur with
    | none => rfl
    | some ls =>
      dsimp only
      cases hl : ls[j]? with
      | none => rfl
      | some l =>
        dsimp only
        rw [walkPath.eq_def]
  | cons i q' ih =>
    intro cur tgt
    rw [List.cons_append]
    simp only [List.map_cons]
    rw [walkPath.eq_def, descend.eq_def]
    dsimp only
    cases cur with
    | none => rfl
    | some ls =>
      dsimp only
      cases hl : ls[i]? with
      | none => rfl
      | some l => exact ih l.children (some l)

theorem findLayerByPath_pathStr (psd : RawPsd) (pref : List Nat) (k : Nat)
    (full : List RawLayer) (hd : descend psd.children pref = some full) :
    findLayerByPath psd (pathStr (pref ++ [k])) = full[k]? := by
  rw [findLayerByPath]
  rw [if_neg (by simpa using pathStr_ne_empty (pref ++ [k]) (by simp))]
  rw [splitDot_pathStr _ (by simp)]
  rw [List.map_map]
  rw [show (jsNumberNat ∘ natToChars) = fun i => some i from
    funext (fun i => jsNumberNat_natToChars i)]
  rw [show (pref ++ [k]).map (fun i => some i) = (pref ++ [k]).map some from rfl]
  rw [walkPath_somes_snoc, hd]


theorem descend_snoc (q : List Nat) (j : Nat) : ∀ cur,
    descend cur (q ++ [j])
      = (match (match descend cur q with
                | some ls => ls[j]?
                | none => none) with
         | some l => l.children
         | none => none) := by
  induction q with
  | nil =>
    intro cur
    cases cur with
    | none => simp [descend]
    | some ls =>
      rw [show descend (some ls) [] = some ls from rfl]
      rw [show ([] : List Nat) ++ [j] = [j] from rfl]
      rw [descend.eq_def]
      dsimp only
      cases hl : ls[j]? with
      | none => rfl
      | some l =>
        dsimp only
        rw [descend.eq_def]
  | cons i q' ih =>
    intro cur
    rw [List.cons_append, descend.eq_def]
    dsimp only
    cases cur with
    | none => rfl
    | some ls =>
      dsimp only
      conv_rhs => rw [descend.eq_def]
      dsimp only
      cases hl : ls[i]? with
      | none => rfl
      | some l => exact ih l.children

theorem cleanTree_derived (psd : RawPsd) :
    ∀ (ls : List RawLayer) (path : String) (k : Nat),
    ∀ (pref : List Nat) (full : List RawLayer),
      path = pathStr pref →
      descend psd.children pref = some full →
      (∀ j, j < ls.length → full[k + j]? = ls[j]?) →
      ∀ n ∈ allSL (cleanTreeGo ls path k), cleanDerived psd n := by
  intro ls path k
  induction ls, path, k using cleanTreeGo.induct with
  | case1 path k =>
    intro pref full hpath hdesc hsuf n hn
    rw [cleanTreeGo.eq_def] at hn
    simp [allSL] at hn
  | case2 top left bottom right hidden opac ch rest path index ihr =>
    intro pref full hpath hdesc hsuf n hn
    rw [cleanTreeGo.eq_def] at hn
    dsimp only at hn
    rw [if_pos rfl] at hn
    refine ihr pref full hpath hdesc ?_ n hn
    intro j hj
    have := hsuf (j + 1) (by simpa using Nat.succ_lt_succ hj)
    rw [show index + (j + 1) = (index + 1) + j from by omega] at this
    rw [this]
    simp
  | case3 nm top left bottom right hidden opac ch rest path index hnm currentPath ihk ihr =>
    intro pref full hpath hdesc hsuf n hn
    rw [cleanTreeGo.eq_def] at hn
    dsimp only at hn
    rw [if_neg hnm] at hn
    have headPath : (if path ≠ "" then path ++ "." ++ natToString index
        else natToString index) = pathStr (pref ++ [index]) := by
      by_cases hpn : pref = []
      · subst hpn
        rw [hpath]
        rw [if_neg (by simp [pathStr_nil])]
        rfl
      · rw [if_pos (by rw [hpath]; exact pathStr_ne_empty pref hpn)]
        rw [hpath, pathStr_snoc pref hpn]
    have h0 : full[index]? = some (RawLayer.mk nm top left bottom right hidden opac ch) := by
      have := hsuf 0 (by simp)
      rw [Nat.add_zero] at this
      simpa using this
    have hfind : findLayerByPath psd
        (if path ≠ "" then path ++ "." ++ natToString index else natToString index)
        = some (RawLayer.mk nm top left bottom right hidden opac ch) := by
      rw [headPath, findLayerByPath_pathStr psd pref index full hdesc, h0]
    rw [allSL.eq_def] at hn
    dsimp only at hn
    rcases List.mem_cons.mp hn with hh | hh
    · subst hh
      exact ⟨RawLayer.mk nm top left bottom right hidden opac ch,
        hfind, rfl, rfl, rfl, rfl, rfl⟩
    · rcases List.mem_append.mp hh with hh2 | hh2
      · cases hch : ch with
        | none =>
          rw [hch] at hh2
          simp at hh2
        | some kids =>
          rw [hch] at hh2
          dsimp only at hh2
          rw [hch] at ihk
          refine ihk (pref ++ [index]) kids headPath ?_ ?_ n hh2
          · rw [descend_snoc, hdesc]
            dsimp only
            rw [h0]
            dsimp only [RawLayer.children]
            exact hch
          · intro j hj
            rw [Nat.zero_add]
      · refine ihr pref full hpath hdesc ?_ n hh2
        intro j hj
        have := hsuf (j + 1) (by simpa using Nat.succ_lt_succ hj)
        rw [show index + (j + 1) = (index + 1) + j from by omega] at this
        rw [this]
        simp


/-- C10: path-identity round-trip — every node of the cleaned layer tree
produced by `getCleanLayerTree` is re-located by `findLayerByPath` at its
dot-separated index-path id, returning exactly the raw layer it was derived
from (same coordinates, kind, visibility, opacity, and children), the ids
staying aligned with the raw children arrays even though `'!!TEMPLATE'`
groups are filtered out of the cleaned tree. -/
theorem c10_path_identity (psd : RawPsd) (roots : List RawLayer)
    (hroot : psd.children = some roots) :
    ∀ n ∈ allSL (getCleanLayerTree roots), cleanDerived psd n := by
  intro n hn
  refine cleanTree_derived psd roots "" 0 [] roots rfl ?_ ?_ n hn
  · rw [show descend psd.children [] = psd.children from rfl, hroot]
  · intro j hj
    rw [Nat.zero_add]

/-- C10 witness: in the example document (marker group at index 0, design
group at index 1), the cleaned node with id `"1.0"` is re-located to the raw
`L1` leaf. -/
theorem c10_path_identity_witness :
    cleanDerived psdEx2
      (SLayer.mk "1.0" "L1" LKind.layer true 1 ⟨20, 10, 20, 20⟩ none) := by
  apply c10_path_identity psdEx2 [tmplGroupEx, designEx] rfl
  simp [getCleanLayerTree, cleanTreeGo, allSL, tmplGroupEx, designEx, leafEx,
    heroEx, natToString, natToChars, digitChar, truthyOB, rawNameOr]
  norm_num



theorem reconstruct_synthetic {α : Type} (assets : String → Option α)
    (srcPsd : Option RawPsd) :
    ∀ (ls : List TLayer), ∀ o ∈ allOut (reconstructHierarchy assets srcPsd ls),
      OutLayer.orig o = none →
      ∃ l ∈ allTL ls, TLayer.type l = LKind.generative
        ∧ ∃ c, assets (TLayer.id l) = some c
          ∧ o = OutLayer.mk none (some (TLayer.name l)) (TLayer.coords l).y
              (TLayer.coords l).x ((TLayer.coords l).y + (TLayer.coords l).h)
              ((TLayer.coords l).x + (TLayer.coords l).w)
              (! TLayer.isVisible l) (TLayer.opacity l * 255) (some c) none false := by
  intro ls
  induction ls using reconstructHierarchy.induct assets srcPsd with
  | case1 =>
    intro o ho
    rw [reconstructHierarchy.eq_def] at ho
    simp [allOut] at ho
  | case2 lid nm ty vis op co tr ch gp rest ihk ihr =>
    intro o ho horig
    rw [reconstructHierarchy.eq_def] at ho
    dsimp only at ho
    have hlift : ∀ l, l ∈ (match ch with
          | some kids => allTL kids
          | none => ([] : List TLayer)) ∨ l ∈ allTL rest →
        l ∈ allTL (TLayer.mk lid nm ty vis op co tr ch gp :: rest) := by
      intro l hl
      rw [allTL.eq_def]
      dsimp only
      exact List.mem_cons_of_mem _ (List.mem_append.mpr hl)
    by_cases hty : ty = LKind.generative
    · rw [if_pos hty] at ho
      cases hassets : assets lid with
      | none =>
        rw [hassets] at ho
        simp only [Option.map_none', consOpt] at ho
        obtain ⟨l, hl, hrest⟩ := ihr o ho horig
        exact ⟨l, hlift l (Or.inr hl), hrest⟩
      | some a =>
        rw [hassets] at ho
        simp only [Option.map_some', consOpt] at ho
        rw [allOut.eq_def] at ho
        dsimp only at ho
        rcases List.mem_cons.mp ho with hh | hh
        · subst hh
          refine ⟨TLayer.mk lid nm ty vis op co tr ch gp, by
            rw [allTL.eq_def]; dsimp only; exact List.mem_cons_self _ _, ?_, ?_⟩
          · simpa [TLayer.type] using hty
          · exact ⟨a, by simpa [TLayer.id] using hassets, rfl⟩
        · rcases List.mem_append.mp hh with hh2 | hh2
          · simp at hh2
          · obtain ⟨l, hl, hrest⟩ := ihr o hh2 horig
            exact ⟨l, hlift l (Or.inr hl), hrest⟩
    · rw [if_neg hty] at ho
      have hsplit : srcPsd = none ∨ ∃ psd, srcPsd = some psd := by
        cases srcPsd
        · exact Or.inl rfl
        · exact Or.inr ⟨_, rfl⟩
      rcases hsplit with hsrc | ⟨psd, hsrc⟩
      · rw [hsrc] at ho ihr
        rw [Option.none_bind] at ho
        simp only [consOpt] at ho
        obtain ⟨l, hl, hrest⟩ := ihr o ho horig
        exact ⟨l, hlift l (Or.inr hl), hrest⟩
      · rw [hsrc] at ho ihk ihr
        rw [Option.some_bind] at ho
        cases hfind : findLayerByPath psd lid with
        | none =>
          rw [hfind] at ho
          simp only [Option.map_none', consOpt] at ho
          obtain ⟨l, hl, hrest⟩ := ihr o ho horig
          exact ⟨l, hlift l (Or.inr hl), hrest⟩
        | some origL =>
          rw [hfind] at ho
          simp only [Option.map_some', consOpt] at ho
          by_cases hgi : ty = LKind.group ∧ ch.isSome = true
          · rw [if_pos hgi] at ho
            rw [allOut.eq_def] at ho
            dsimp only at ho
            rcases List.mem_cons.mp ho with hh | hh
            · subst hh
              simp [OutLayer.orig] at horig
            · rcases List.mem_append.mp hh with hh2 | hh2
              · rcases hch : ch with _ | kids
                · rw [hch] at hgi
                  simp at hgi
                · rw [hch] at hh2
                  dsimp only at hh2
                  rw [hch] at ihk
                  dsimp only at ihk
                  obtain ⟨l, hl, hrest⟩ := ihk o hh2 horig
                  refine ⟨l, ?_, hrest⟩
                  rw [allTL.eq_def]
                  dsimp only
                  exact List.mem_cons_of_mem _ (List.mem_append.mpr (Or.inl hl))
              · obtain ⟨l, hl, hrest⟩ := ihr o hh2 horig
                exact ⟨l, hlift l (Or.inr hl), hrest⟩
          · rw [if_neg hgi] at ho
            rw [allOut.eq_def] at ho
            dsimp only at ho
            rcases List.mem_cons.mp ho with hh | hh
            · subst hh
              simp [OutLayer.orig] at horig
            · rcases List.mem_append.mp hh with hh2 | hh2
              · simp at hh2
              · obtain ⟨l, hl, hrest⟩ := ihr o hh2 horig
                exact ⟨l, hlift l (Or.inr hl), hrest⟩


theorem lookupAssets_append {α : Type} (A B : List (String × α)) (k : String) :
    lookupAssets (A ++ B) k
      = (match lookupAssets B k with
         | some c => some c
         | none => lookupAssets A k) := by
  induction A with
  | nil =>
    rw [List.nil_append]
    cases hB : lookupAssets B k with
    | some c => rfl
    | none =>
      dsimp only
      rw [lookupAssets.eq_def]
  | cons p A2 ih =>
    rcases p with ⟨i, c⟩
    rw [List.cons_append]
    conv_lhs => rw [lookupAssets]
    rw [ih]
    conv_rhs => rw [lookupAssets]
    cases lookupAssets B k with
    | some c2 => rfl
    | none => rfl

theorem lookupAssets_eq_none {α : Type} (A : List (String × α)) (k : String)
    (h : ∀ p ∈ A, p.1 ≠ k) : lookupAssets A k = none := by
  induction A with
  | nil => rw [lookupAssets.eq_def]
  | cons p A2 ih =>
    rcases p with ⟨i, c⟩
    rw [lookupAssets.eq_def]
    dsimp only
    rw [ih (fun q hq => h q (by simp [hq]))]
    rw [if_neg (h (i, c) (by simp))]

theorem collectAssets_keys {α : Type} (d : String → Rect → Option α)
    (g : String → Rect → Option String → Option α) (P : TransformedPayload) :
    ∀ (ls : List TLayer) (k : String) (c : α),
      (k, c) ∈ collectAssets d g P ls → ∃ l ∈ allTL ls, TLayer.id l = k := by
  intro ls
  induction ls using collectAssets.induct d g P with
  | case1 =>
    intro k c hk
    rw [collectAssets.eq_def] at hk
    simp at hk
  | case2 lid nm ty vis op co tr ch gp rest ihk ihr =>
    intro k c hk
    rw [collectAssets.eq_def] at hk
    dsimp only at hk
    rw [allTL.eq_def]
    dsimp only
    rcases List.mem_append.mp hk with hk1 | hkr
    · rcases List.mem_append.mp hk1 with hkh | hkk
      · refine ⟨TLayer.mk lid nm ty vis op co tr ch gp, by simp, ?_⟩
        have hklid : k = lid := by
          split at hkh
          · rw [assetFor] at hkh
            split at hkh <;>
            · split at hkh <;> simp_all
          · simp at hkh
        simp [TLayer.id, hklid]
      · cases ch with
        | none => simp at hkk
        | some kids =>
          dsimp only at hkk ihk
          obtain ⟨l, hl, hid⟩ := ihk k c hkk
          exact ⟨l, by simp [List.mem_append.mpr (Or.inl hl)], hid⟩
    · obtain ⟨l, hl, hid⟩ := ihr k c hkr
      exact ⟨l, by simp [List.mem_append.mpr (Or.inr hl)], hid⟩

theorem collectAssets_unconfirmed {α : Type} (d : String → Rect → Option α)
    (g : String → Rect → Option String → Option α) (P : TransformedPayload)
    (hconf : ¬ truthyOB P.isConfirmed = true) :
    ∀ (ls : List TLayer), collectAssets d g P ls = [] := by
  intro ls
  induction ls using collectAssets.induct d g P with
  | case1 => rw [collectAssets.eq_def]
  | case2 lid nm ty vis op co tr ch gp rest ihk ihr =>
    rw [collectAssets.eq_def]
    dsimp only
    rw [if_neg (fun hh => hconf hh.2.2)]
    rw [ihr]
    cases ch with
    | none => rfl
    | some kids =>
      dsimp only at ihk ⊢
      rw [ihk]
      rfl

theorem assetFor_keys {α : Type} (d : String → Rect → Option α)
    (g : String → Rect → Option String → Option α) (P : TransformedPayload)
    (lid : String) (co : Rect) (gp : Option String) :
    ∀ p ∈ assetFor d g P lid co gp, p.1 = lid := by
  intro p hp
  rw [assetFor] at hp
  split at hp <;>
  · split at hp <;> simp_all

theorem lookup_collect {α : Type} (d : String → Rect → Option α)
    (g : String → Rect → Option String → Option α) (P : TransformedPayload)
    (hconf : truthyOB P.isConfirmed = true) :
    ∀ ls : List TLayer, ((allTL ls).map TLayer.id).Nodup →
      ∀ l ∈ allTL ls, TLayer.type l = LKind.generative →
        truthyOS (TLayer.generativePrompt l) = true →
        lookupAssets (collectAssets d g P ls) (TLayer.id l)
          = (if truthyOS P.previewUrl = true
             then d (P.previewUrl.getD "") (TLayer.coords l)
             else g ((TLayer.generativePrompt l).getD "") (TLayer.coords l)
               P.sourceReference) := by
  intro ls
  induction ls using collectAssets.induct d g P with
  | case1 =>
    intro hnod l hl
    rw [allTL.eq_def] at hl
    simp at hl
  | case2 lid nm ty vis op co tr ch gp rest ihk ihr =>
    intro hnod l hl hgen hprompt
    have hnodc : (lid
          :: (((match ch with
               | some kids => allTL kids
               | none => ([] : List TLayer)).map TLayer.id)
             ++ (allTL rest).map TLayer.id)).Nodup := by
      rw [allTL.eq_def] at hnod
      dsimp only at hnod
      simpa using hnod
    have hlid_notin := (List.nodup_cons.mp hnodc).1
    have hnod2 := (List.nodup_cons.mp hnodc).2
    rw [List.nodup_append] at hnod2
    have hdisj := hnod2.2.2
    rw [allTL.eq_def] at hl
    dsimp only at hl
    rw [collectAssets.eq_def]
    dsimp only
    rcases List.mem_cons.mp hl with hh | hh
    · subst hh
      rw [show TLayer.id (TLayer.mk lid nm ty vis op co tr ch gp) = lid from rfl]
      rw [lookupAssets_append]
      rw [lookupAssets_eq_none (collectAssets d g P rest) lid (by
        intro p hp
        obtain ⟨l2, hl2, hid2⟩ := collectAssets_keys d g P rest p.1 p.2 (by simpa using hp)
        intro hplid
        exact hlid_notin (List.mem_append.mpr (Or.inr
          (List.mem_map.mpr ⟨l2, hl2, by rw [hid2, hplid]⟩))))]
      rw [lookupAssets_append]
      rw [lookupAssets_eq_none _ lid (by
        intro p hp
        cases hch : ch with
        | none =>
          rw [hch] at hp
          simp at hp
        | some kids =>
          rw [hch] at hp
          dsimp only at hp
          obtain ⟨l2, hl2, hid2⟩ := collectAssets_keys d g P kids p.1 p.2 (by simpa using hp)
          intro hplid
          refine hlid_notin (List.mem_append.mpr (Or.inl ?_))
          rw [hch]
          exact List.mem_map.mpr ⟨l2, hl2, by rw [hid2, hplid]⟩)]
      have hcond : ty = LKind.generative ∧ truthyOS gp = true
          ∧ truthyOB P.isConfirmed = true :=
        ⟨by simpa [TLayer.type] using hgen,
         by simpa [TLayer.generativePrompt] using hprompt, hconf⟩
      rw [if_pos hcond]
      rw [assetFor]
      rw [show TLayer.coords (TLayer.mk lid nm ty vis op co tr ch gp) = co from rfl]
      rw [show TLayer.generativePrompt (TLayer.mk lid nm ty vis op co tr ch gp) = gp from rfl]
      by_cases hprev : truthyOS P.previewUrl = true
      · simp only [if_pos hprev]
        cases hd : d (P.previewUrl.getD "") co with
        | none =>
          dsimp only
          rw [lookupAssets.eq_def]
        | some c =>
          dsimp only
          rw [lookupAssets.eq_def]
          dsimp only
          rw [lookupAssets.eq_def]
          simp
      · simp only [if_neg hprev]
        cases hg2 : g (gp.getD "") co P.sourceReference with
        | none =>
          dsimp only
          rw [lookupAssets.eq_def]
        | some c =>
          dsimp only
          rw [lookupAssets.eq_def]
          dsimp only
          rw [lookupAssets.eq_def]
          simp
    · rcases List.mem_append.mp hh with hkid | hrest2
      · cases hch : ch with
        | none =>
          rw [hch] at hkid
          simp at hkid
        | some kids =>
          rw [hch] at hkid
          dsimp only at hkid
          rw [hch] at ihk
          dsimp only at ihk
          have hknodup : ((allTL kids).map TLayer.id).Nodup := by
            have hx := hnod2.1
            rw [hch] at hx
            exact hx
          have hval := ihk hknodup l hkid hgen hprompt
          have hlid_ne : TLayer.id l ≠ lid := by
            intro he
            refine hlid_notin (List.mem_append.mpr (Or.inl ?_))
            rw [hch]
            exact List.mem_map.mpr ⟨l, hkid, he⟩
          rw [lookupAssets_append]
          rw [lookupAssets_eq_none (collectAssets d g P rest) (TLayer.id l) (by
            intro p hp
            obtain ⟨l2, hl2, hid2⟩ := collectAssets_keys d g P rest p.1 p.2 (by simpa using hp)
            intro hpl
            have h1 : TLayer.id l ∈ (match ch with
                | some kids2 => allTL kids2
                | none => ([] : List TLayer)).map TLayer.id := by
              rw [hch]
              exact List.mem_map.mpr ⟨l, hkid, rfl⟩
            have h2 : TLayer.id l ∈ (allTL rest).map TLayer.id :=
              List.mem_map.mpr ⟨l2, hl2, by rw [hid2, hpl]⟩
            exact hdisj h1 h2)]
          rw [lookupAssets_append]
          dsimp only
          rw [hval]
          cases hrhs : (if truthyOS P.previewUrl = true
              then d (P.previewUrl.getD "") (TLayer.coords l)
              else g ((TLayer.generativePrompt l).getD "") (TLayer.coords l)
                P.sourceReference) with
          | some c => rfl
          | none =>
            dsimp only
            split
            · exact lookupAssets_eq_none _ _ (fun p hp => by
                have hpk := assetFor_keys d g P lid co gp p hp
                rw [hpk]
                exact fun he => hlid_ne he.symm)
            · rw [lookupAssets.eq_def]
      · have hval := ihr hnod2.2.1 l hrest2 hgen hprompt
        have hlid_ne : TLayer.id l ≠ lid := by
          intro he
          exact hlid_notin (List.mem_append.mpr (Or.inr
            (List.mem_map.mpr ⟨l, hrest2, he⟩)))
        rw [lookupAssets_append]
        rw [hval]
        cases hrhs : (if truthyOS P.previewUrl = true
            then d (P.previewUrl.getD "") (TLayer.coords l)
            else g ((TLayer.generativePrompt l).getD "") (TLayer.coords l)
              P.sourceReference) with
        | some c => rfl
        | none =>
          dsimp only
          rw [lookupAssets_append]
          rw [lookupAssets_eq_none _ (TLayer.id l) (by
            intro p hp
            cases hch : ch with
            | none =>
              rw [hch] at hp
              simp at hp
            | some kids =>
              rw [hch] at hp
              dsimp only at hp
              obtain ⟨l2, hl2, hid2⟩ := collectAssets_keys d g P kids p.1 p.2 (by simpa using hp)
              intro hpl
              have h1 : TLayer.id l ∈ (match ch with
                  | some kids2 => allTL kids2
                  | none => ([] : List TLayer)).map TLayer.id := by
                rw [hch]
                exact List.mem_map.mpr ⟨l2, hl2, by rw [hid2, hpl]⟩
              have h2 : TLayer.id l ∈ (allTL rest).map TLayer.id :=
                List.mem_map.mpr ⟨l, hrest2, rfl⟩
              exact hdisj h1 h2)]
          exact lookupAssets_eq_none _ _ (fun p hp => by
            by_cases hc : ty = LKind.generative ∧ truthyOS gp = true
                ∧ truthyOB P.isConfirmed = true
            · rw [if_pos hc] at hp
              have hpk := assetFor_keys d g P lid co gp p hp
              rw [hpk]
              exact fun he => hlid_ne he.symm
            · rw [if_neg hc] at hp
              simp at hp)


/-- A decoder that always resolves an asset (stands for a successful base64 decode). -/
def c9d : String → Rect → Option Nat := fun _ _ => some 7

/-- A generator that always resolves an asset (stands for a successful generation call). -/
def c9g : String → Rect → Option String → Option Nat := fun _ _ _ => some 99

/-- A confirmed payload with a preview URL holding one prompted generative layer. -/
def c9Payload : TransformedPayload :=
  { basePayload with
    isConfirmed := some true
    previewUrl := some "http://p"
    layers := [genLayerEx] }

/-- A generative layer carrying no generativePrompt. -/
def c9NoPromptLayer : TLayer :=
  TLayer.mk "np" "noprompt" LKind.generative true 1 ⟨0, 0, 10, 10⟩ ⟨1, 1, 0, 0⟩
    none none

/-- A confirmed payload with a preview URL holding one prompt-less generative layer. -/
def c9BadPayload : TransformedPayload :=
  { basePayload with
    isConfirmed := some true
    previewUrl := some "http://p"
    layers := [c9NoPromptLayer] }

/-- An unconfirmed payload whose generative layer shares its id with
`c9Payload`'s (both slots are fed by the same source container, so both carry
`gen-layer-SRC`). -/
def c9Unconf : TransformedPayload :=
  { basePayload with
    layers := [genLayerEx] }

/-- An entry of the per-payload collection comes from a generative layer with a
truthy prompt of a confirmed payload. -/
theorem collectAssets_keys_full {α : Type} (d : String → Rect → Option α)
    (g : String → Rect → Option String → Option α) (P : TransformedPayload) :
    ∀ (ls : List TLayer) (k : String) (c : α),
      (k, c) ∈ collectAssets d g P ls →
        truthyOB P.isConfirmed = true
          ∧ ∃ l ∈ allTL ls, TLayer.id l = k ∧ TLayer.type l = LKind.generative
              ∧ truthyOS (TLayer.generativePrompt l) = true := by
  intro ls
  induction ls using collectAssets.induct d g P with
  | case1 =>
    intro k c hk
    rw [collectAssets.eq_def] at hk
    simp at hk
  | case2 lid nm ty vis op co tr ch gp rest ihk ihr =>
    intro k c hk
    rw [collectAssets.eq_def] at hk
    dsimp only at hk
    rw [allTL.eq_def]
    dsimp only
    rcases List.mem_append.mp hk with hk1 | hkr
    · rcases List.mem_append.mp hk1 with hkh | hkk
      · by_cases hcnd : ty = LKind.generative ∧ truthyOS gp = true
            ∧ truthyOB P.isConfirmed = true
        · have hklid : k = lid := by
            rw [if_pos hcnd] at hkh
            exact assetFor_keys d g P lid co gp (k, c) hkh
          refine ⟨hcnd.2.2, TLayer.mk lid nm ty vis op co tr ch gp, by simp,
            ?_, ?_, ?_⟩
          · simp [TLayer.id, hklid]
          · simpa [TLayer.type] using hcnd.1
          · simpa [TLayer.generativePrompt] using hcnd.2.1
        · rw [if_neg hcnd] at hkh
          simp at hkh
      · cases ch with
        | none => simp at hkk
        | some kids =>
          dsimp only at hkk ihk
          obtain ⟨hc, l, hl, hrest⟩ := ihk k c hkk
          exact ⟨hc, l, by simp [List.mem_append.mpr (Or.inl hl)], hrest⟩
    · obtain ⟨hc, l, hl, hrest⟩ := ihr k c hkr
      exact ⟨hc, l, by simp [List.mem_append.mpr (Or.inr hl)], hrest⟩

/-- A successful lookup exhibits an entry of the list. -/
theorem lookupAssets_mem {α : Type} :
    ∀ (A : List (String × α)) (k : String) (c : α),
      lookupAssets A k = some c → (k, c) ∈ A := by
  intro A
  induction A with
  | nil =>
    intro k c h
    rw [lookupAssets.eq_def] at h
    simp at h
  | cons p A2 ih =>
    intro k c h
    rcases p with ⟨i, c2⟩
    rw [lookupAssets.eq_def] at h
    dsimp only at h
    cases hrec : lookupAssets A2 k with
    | some c3 =>
      rw [hrec] at h
      dsimp only at h
      injection h with hc
      exact List.mem_cons_of_mem _ (hc ▸ ih k c3 hrec)
    | none =>
      rw [hrec] at h
      dsimp only at h
      by_cases hik : i = k
      · rw [if_pos hik] at h
        injection h with hc
        rw [← hik, ← hc]
        exact List.mem_cons_self _ _
      · rw [if_neg hik] at h
        simp at h

/-- Every entry of the shared export map comes from a confirmed payload's
generative layer with a truthy prompt. -/
theorem exportAssets_entries {α : Type} (d : String → Rect → Option α)
    (g : String → Rect → Option String → Option α) :
    ∀ (slots : List (Option TransformedPayload)) (k : String) (c : α),
      (k, c) ∈ exportAssets d g slots →
        ∃ P, some P ∈ slots ∧ truthyOB P.isConfirmed = true
          ∧ ∃ l ∈ allTL P.layers, TLayer.id l = k
              ∧ TLayer.type l = LKind.generative
              ∧ truthyOS (TLayer.generativePrompt l) = true := by
  intro slots
  induction slots with
  | nil =>
    intro k c h
    simp [exportAssets] at h
  | cons s rest ih =>
    intro k c h
    cases s with
    | none =>
      simp only [exportAssets] at h
      obtain ⟨P, hP, hrest⟩ := ih k c h
      exact ⟨P, List.mem_cons_of_mem _ hP, hrest⟩
    | some P =>
      simp only [exportAssets] at h
      rcases List.mem_append.mp h with h1 | h2
      · obtain ⟨hc, l, hl, hrest⟩ := collectAssets_keys_full d g P P.layers k c h1
        exact ⟨P, List.mem_cons_self _ _, hc, l, hl, hrest⟩
      · obtain ⟨Q, hQ, hrest⟩ := ih k c h2
        exact ⟨Q, List.mem_cons_of_mem _ hQ, hrest⟩

/-- The id of any layer of any connected payload appears in the export ids. -/
theorem mem_exportIds :
    ∀ (slots : List (Option TransformedPayload)) (P : TransformedPayload),
      some P ∈ slots → ∀ l ∈ allTL P.layers, TLayer.id l ∈ exportIds slots := by
  intro slots
  induction slots with
  | nil =>
    intro P hP
    simp at hP
  | cons s rest ih =>
    intro P hP l hl
    rcases List.mem_cons.mp hP with he | hm
    · subst he
      simp only [exportIds]
      exact List.mem_append.mpr (Or.inl (List.mem_map.mpr ⟨l, hl, rfl⟩))
    · cases s with
      | none =>
        simp only [exportIds]
        exact ih P hm l hl
      | some Q =>
        simp only [exportIds]
        exact List.mem_append.mpr (Or.inr (ih P hm l hl))

/-- Shared-map lookup for a confirmed, prompted generative layer under
export-wide distinct ids: previewUrl decode first, fallback generation else. -/
theorem export_lookup {α : Type} (d : String → Rect → Option α)
    (g : String → Rect → Option String → Option α) :
    ∀ (slots : List (Option TransformedPayload)), (exportIds slots).Nodup →
      ∀ P, some P ∈ slots → truthyOB P.isConfirmed = true →
        ∀ l ∈ allTL P.layers, TLayer.type l = LKind.generative →
          truthyOS (TLayer.generativePrompt l) = true →
          lookupAssets (exportAssets d g slots) (TLayer.id l)
            = (if truthyOS P.previewUrl = true
               then d (P.previewUrl.getD "") (TLayer.coords l)
               else g ((TLayer.generativePrompt l).getD "") (TLayer.coords l)
                 P.sourceReference) := by
  intro slots
  induction slots with
  | nil =>
    intro _ P hP
    simp at hP
  | cons s rest ih =>
    intro hnod P hP hconf l hl hgen hpr
    cases s with
    | none =>
      simp only [exportIds] at hnod
      simp only [exportAssets]
      have hm : some P ∈ rest := by
        rcases List.mem_cons.mp hP with he | hm
        · exact absurd he (by simp)
        · exact hm
      exact ih hnod P hm hconf l hl hgen hpr
    | some Q =>
      simp only [exportIds] at hnod
      rw [List.nodup_append] at hnod
      obtain ⟨hnodQ, hnodrest, hdisj⟩ := hnod
      simp only [exportAssets]
      rw [lookupAssets_append]
      rcases List.mem_cons.mp hP with he | hm
      · have hPQ : P = Q := by injection he
        subst hPQ
        have hnone : lookupAssets (exportAssets d g rest) (TLayer.id l)
            = none := by
          apply lookupAssets_eq_none
          intro p hp hpl
          have h1 : TLayer.id l ∈ (allTL P.layers).map TLayer.id :=
            List.mem_map.mpr ⟨l, hl, rfl⟩
          have h2 : TLayer.id l ∈ exportIds rest := by
            obtain ⟨R, hR, hRc, l2, hl2, hid2, _, _⟩ :=
              exportAssets_entries d g rest p.1 p.2 (by simpa using hp)
            have hm2 := mem_exportIds rest R hR l2 hl2
            rw [hid2, hpl] at hm2
            exact hm2
          exact hdisj h1 h2
        rw [hnone]
        dsimp only
        exact lookup_collect d g P hconf P.layers hnodQ l hl hgen hpr
      · have hval := ih hnodrest P hm hconf l hl hgen hpr
        rw [hval]
        cases hrhs : (if truthyOS P.previewUrl = true
            then d (P.previewUrl.getD "") (TLayer.coords l)
            else g ((TLayer.generativePrompt l).getD "") (TLayer.coords l)
              P.sourceReference) with
        | some c => rfl
        | none =>
          dsimp only
          apply lookupAssets_eq_none
          intro p hp hpl
          have h2 : TLayer.id l ∈ exportIds rest := mem_exportIds rest P hm l hl
          have h1 : TLayer.id l ∈ (allTL Q.layers).map TLayer.id := by
            obtain ⟨l2, hl2, hid2⟩ :=
              collectAssets_keys d g Q Q.layers p.1 p.2 (by simpa using hp)
            rw [← hpl, ← hid2]
            exact List.mem_map.mpr ⟨l2, hl2, rfl⟩
          exact hdisj h1 h2

/-- Every assembled tree is the reconstruction of some connected payload. -/
theorem assembleSlots_mem {α : Type} (assets : String → Option α)
    (reg : String → Option RawPsd) :
    ∀ (slots : List (Option TransformedPayload)) (T : List (OutLayer α)),
      T ∈ assembleSlots assets reg slots →
      ∃ P, some P ∈ slots
        ∧ T = reconstructHierarchy assets (reg P.sourceNodeId) P.layers := by
  intro slots
  induction slots with
  | nil =>
    intro T hT
    simp [assembleSlots] at hT
  | cons s rest ih =>
    intro T hT
    cases s with
    | none =>
      simp only [assembleSlots] at hT
      obtain ⟨P, hP, hTe⟩ := ih T hT
      exact ⟨P, List.mem_cons_of_mem _ hP, hTe⟩
    | some Q =>
      simp only [assembleSlots] at hT
      rcases List.mem_cons.mp hT with he | hm
      · exact ⟨Q, List.mem_cons_self _ _, he⟩
      · obtain ⟨P, hP, hTe⟩ := ih T hm
        exact ⟨P, List.mem_cons_of_mem _ hP, hTe⟩

/-- C9: the synthesis phase of the export stores assets only for generative
layers with a truthy generativePrompt belonging to confirmed payloads, an
unconfirmed payload contributing nothing; every tree of the assembled export is
the reconstruction of one connected payload against the export-wide SHARED
asset map, and every synthetic layer in it (one not backed by an original
source layer) comes from a generative layer of that payload whose id resolved
in the shared map — hence from a confirmed, prompted generative layer of some
payload of the export, possibly a different one when ids collide; if an
unconfirmed payload shares no layer id with any confirmed payload of the
export, its reconstructed tree is entirely backed by original source layers;
and under export-wide distinct layer ids a confirmed prompted generative layer
resolves to the previewUrl decode when the previewUrl is truthy and to the
fallback generation call otherwise. -/
theorem c9_generative_assembly {α : Type} (d : String → Rect → Option α)
    (g : String → Rect → Option String → Option α) (reg : String → Option RawPsd)
    (slots : List (Option TransformedPayload)) :
    (∀ (k : String) (c : α), (k, c) ∈ exportAssets d g slots →
      ∃ P, some P ∈ slots ∧ truthyOB P.isConfirmed = true
        ∧ ∃ l ∈ allTL P.layers, TLayer.id l = k
            ∧ TLayer.type l = LKind.generative
            ∧ truthyOS (TLayer.generativePrompt l) = true)
    ∧ (∀ P, some P ∈ slots → ¬ truthyOB P.isConfirmed = true →
        collectAssets d g P P.layers = [])
    ∧ (∀ T ∈ exportAssemble d g reg slots,
        ∃ P, some P ∈ slots
          ∧ T = reconstructHierarchy
              (fun k => lookupAssets (exportAssets d g slots) k)
              (reg P.sourceNodeId) P.layers
          ∧ ∀ o ∈ allOut T, OutLayer.orig o = none →
              ∃ l ∈ allTL P.layers, TLayer.type l = LKind.generative
                ∧ (∃ c, lookupAssets (exportAssets d g slots) (TLayer.id l)
                      = some c
                    ∧ o = OutLayer.mk none (some (TLayer.name l))
                        (TLayer.coords l).y (TLayer.coords l).x
                        ((TLayer.coords l).y + (TLayer.coords l).h)
                        ((TLayer.coords l).x + (TLayer.coords l).w)
                        (! TLayer.isVisible l) (TLayer.opacity l * 255) (some c)
                        none false)
                ∧ ∃ Q, some Q ∈ slots ∧ truthyOB Q.isConfirmed = true
                    ∧ ∃ l2 ∈ allTL Q.layers, TLayer.id l2 = TLayer.id l
                        ∧ TLayer.type l2 = LKind.generative
                        ∧ truthyOS (TLayer.generativePrompt l2) = true)
    ∧ (∀ P, some P ∈ slots → ¬ truthyOB P.isConfirmed = true →
        (∀ l ∈ allTL P.layers, ∀ Q, some Q ∈ slots →
          truthyOB Q.isConfirmed = true →
          ∀ l2 ∈ allTL Q.layers, TLayer.id l2 ≠ TLayer.id l) →
        ∀ o ∈ allOut (reconstructHierarchy
            (fun k => lookupAssets (exportAssets d g slots) k)
            (reg P.sourceNodeId) P.layers),
          (OutLayer.orig o).isSome = true)
    ∧ ((exportIds slots).Nodup →
        ∀ P, some P ∈ slots → truthyOB P.isConfirmed = true →
        ∀ l ∈ allTL P.layers, TLayer.type l = LKind.generative →
          truthyOS (TLayer.generativePrompt l) = true →
          lookupAssets (exportAssets d g slots) (TLayer.id l)
            = (if truthyOS P.previewUrl = true
               then d (P.previewUrl.getD "") (TLayer.coords l)
               else g ((TLayer.generativePrompt l).getD "") (TLayer.coords l)
                 P.sourceReference)) := by
  refine ⟨?_, ?_, ?_, ?_, ?_⟩
  · intro k c hk
    exact exportAssets_entries d g slots k c hk
  · intro P _ hnc
    exact collectAssets_unconfirmed d g P hnc P.layers
  · intro T hT
    obtain ⟨P, hP, hTe⟩ :=
      assembleSlots_mem (fun k => lookupAssets (exportAssets d g slots) k)
        reg slots T hT
    refine ⟨P, hP, hTe, ?_⟩
    intro o ho horig
    rw [hTe] at ho
    obtain ⟨l, hl, hgen, c, hc, hshape⟩ :=
      reconstruct_synthetic (fun k => lookupAssets (exportAssets d g slots) k)
        (reg P.sourceNodeId) P.layers o ho horig
    refine ⟨l, hl, hgen, ⟨c, hc, hshape⟩, ?_⟩
    obtain ⟨Q, hQ, hQc, l2, hl2, hid2, hty2, hpr2⟩ :=
      exportAssets_entries d g slots (TLayer.id l) c (lookupAssets_mem _ _ _ hc)
    exact ⟨Q, hQ, hQc, l2, hl2, hid2, hty2, hpr2⟩
  · intro P hP hnc hnocol o ho
    cases hh : OutLayer.orig o with
    | some x => rfl
    | none =>
      exfalso
      obtain ⟨l, hl, hgen, c, hc, _⟩ :=
        reconstruct_synthetic (fun k => lookupAssets (exportAssets d g slots) k)
          (reg P.sourceNodeId) P.layers o ho hh
      obtain ⟨Q, hQ, hQc, l2, hl2, hid2, _, _⟩ :=
        exportAssets_entries d g slots (TLayer.id l) c
          (lookupAssets_mem _ _ _ hc)
      exact hnocol l hl Q hQ hQc l2 hl2 hid2
  · intro hnod P hP hconf l hl hgen hpr
    exact export_lookup d g slots hnod P hP hconf l hl hgen hpr

/-- Witness for C9 at a one-slot export holding a confirmed payload: the single
prompted generative layer resolves its asset through the preview-URL decoder in
the shared export map. -/
theorem c9_generative_assembly_witness :
    truthyOB c9Payload.isConfirmed = true
    ∧ truthyOS c9Payload.previewUrl = true
    ∧ lookupAssets (exportAssets c9d c9g [some c9Payload]) "gen-layer-SRC"
        = some 7 := by
  have hall : allTL c9Payload.layers = [genLayerEx] := by
    simp [c9Payload, basePayload, genLayerEx, allTL]
  have hnod : (exportIds [some c9Payload]).Nodup := by
    simp [exportIds, hall]
  have hmem : genLayerEx ∈ allTL c9Payload.layers := by
    rw [hall]
    simp
  have h := (c9_generative_assembly c9d c9g (fun _ => none)
      [some c9Payload]).2.2.2.2 hnod c9Payload (by simp) rfl genLayerEx hmem
      rfl (by decide)
  have hurl : truthyOS c9Payload.previewUrl = true := by decide
  rw [if_pos hurl] at h
  exact ⟨rfl, hurl, h.trans rfl⟩

/-- C9 counterexample: the shared export map leaks a confirmed payload's asset
into an unconfirmed payload's tree when their generative layers collide on an
id: the unconfirmed `c9Unconf` contributes no asset of its own, yet its
generative layer IS rendered in the assembled output using `c9Payload`'s asset,
refuting the claim that unconfirmed generative layers are skipped entirely; in
addition a confirmed prompt-less generative layer (`c9BadPayload`) resolves no
asset even with a previewUrl present, refuting the claim's unconditional
preview-URL lookup. -/
theorem c9_generative_assembly_counterexample :
    truthyOB c9Unconf.isConfirmed = false
    ∧ collectAssets c9d c9g c9Unconf c9Unconf.layers = []
    ∧ genLayerEx ∈ allTL c9Unconf.layers
    ∧ TLayer.type genLayerEx = LKind.generative
    ∧ exportAssemble c9d c9g (fun _ => none) [some c9Payload, some c9Unconf]
        = [[OutLayer.mk none (some "gen") 0 0 10 10 false 255 (some 7) none
              false],
           [OutLayer.mk none (some "gen") 0 0 10 10 false 255 (some 7) none
              false]]
    ∧ collectAssets c9d c9g c9BadPayload c9BadPayload.layers = [] := by
  refine ⟨rfl, ?_, ?_, rfl, ?_, ?_⟩
  · simp [c9Unconf, basePayload, genLayerEx, collectAssets, truthyOB]
  · have hall : allTL c9Unconf.layers = [genLayerEx] := by
      simp [c9Unconf, basePayload, genLayerEx, allTL]
    rw [hall]
    simp
  · simp [exportAssemble, assembleSlots, exportAssets, collectAssets, assetFor,
      lookupAssets, reconstructHierarchy, consOpt, c9Payload, c9Unconf,
      basePayload, genLayerEx, c9d, truthyOS, truthyOB]
  · simp [c9BadPayload, basePayload, c9NoPromptLayer, collectAssets, truthyOS,
      truthyOB]

end PSD
